import Mathlib

/-!
Verification of the teslausb-ng core against its specification.

This file gives a shallow embedding, in Lean 4, of the core subsystems of the
teslausb-ng repository (`src/teslausb/`): the snapshot store (`snapshot.py`),
the archive driver (`archive.py`), the space sizer (`space.py` / its
`calculate_cam_size` sizing function), the idle detector (`idle.py`) and the
coordinator's backoff and delete-phase logic (`coordinator.py`).

Python filesystem state is modelled as an explicit association list from paths
to nodes, following the semantics of the repository's own in-memory
`MockFilesystem` (`filesystem.py`), which mirrors the real adapter for every
operation used here.  Stateful methods become pure functions that take and
return the state; fallible operations return `Except`; wall-clock instants are
abstract naturals; machine integers are `Nat`/`Int` (Python integers are
unbounded, so no overflow modelling is needed).

Where a method's externally visible behaviour depends on the *order* of
filesystem calls (completion-marker-last on create, marker-first on delete),
the embedding additionally returns the list of mutating filesystem calls the
method performed, in order, so ordering claims become statements about that
trace.
-/

namespace Teslausb

/-! ## Paths and the filesystem store

A path is its list of components (`pathlib.Path` parts, with the root elided).
The store is an association list from absolute paths to nodes, keyed uniquely;
it models `MockFilesystem._files`/`_dirs` (symlinks are unused by the code
under verification).  File contents are abstracted to what the code reads
back: the empty marker file, a metadata JSON record, or an opaque blob of a
given size. -/

abbrev FsPath := List String

/-- Contents of a regular file, abstracted to what the snapshot and archive
code can observe: the zero-byte completion marker text, a metadata record
(`json.dumps` of `Snapshot.to_dict`, which `json.loads`/`from_dict` round-trip
exactly), or an opaque blob whose only observable is its size. -/
inductive FileData where
  | empty : FileData
  | metaJson (id : Nat) (path : FsPath) (createdAt : Nat) : FileData
  | blob (sz : Nat) : FileData
deriving Repr, DecidableEq

inductive Node where
  | file (data : FileData) (size : Nat) (mtime : Nat) : Node
  | dir : Node
deriving Repr, DecidableEq

abbrev Store := List (FsPath × Node)

/-- Predicate `pathLE p q`: true when `p` is an initial segment of `q` (equality
included): the component-list form of `str(q).startswith(str(p) + "/") or
q == p` used by `MockFilesystem.rmtree`/`rmdir`. -/
def pathLE : FsPath → FsPath → Bool
  | [], _ => true
  | _, [] => false
  | a :: as, b :: bs => a == b && pathLE as bs

/-- Association-list lookup: the node at path `p`, first entry wins (every
store built here keeps at most one entry per path). -/
def Store.lookup : Store → FsPath → Option Node
  | [], _ => none
  | e :: es, p => if e.1 = p then some e.2 else Store.lookup es p

/-- Model of `Filesystem.exists`. -/
def Store.existsB (s : Store) (p : FsPath) : Bool :=
  (s.lookup p).isSome

/-- Model of `Filesystem.is_dir`. -/
def Store.isDirB (s : Store) (p : FsPath) : Bool :=
  match s.lookup p with
  | some .dir => true
  | _ => false

/-- Model of `Filesystem.is_file`. -/
def Store.isFileB (s : Store) (p : FsPath) : Bool :=
  match s.lookup p with
  | some (.file _ _ _) => true
  | _ => false

/-- Model of `stat(p).size` (`MockFilesystem.stat`: a directory stats with size 0);
`none` when the path does not exist (`FileNotFoundError_`). -/
def Store.statSize (s : Store) (p : FsPath) : Option Nat :=
  match s.lookup p with
  | some (.file _ sz _) => some sz
  | some .dir => some 0
  | none => none

/-- Model of `stat(p).mtime`; `none` when the path does not exist. -/
def Store.statMtime (s : Store) (p : FsPath) : Option Nat :=
  match s.lookup p with
  | some (.file _ _ mt) => some mt
  | some .dir => some 0
  | none => none

/-- Read a file node's data (`Filesystem.read_text` composed with the parse
the caller performs); `none` when absent or a directory. -/
def Store.readFile (s : Store) (p : FsPath) : Option FileData :=
  match s.lookup p with
  | some (.file d _ _) => some d
  | _ => none

/-- Drop the entry at exactly `p` (helper for `set`/`remove`). -/
def Store.eraseP (s : Store) (p : FsPath) : Store :=
  s.filter (fun e => !(e.1 == p))

/-- Create or overwrite the entry at `p`. -/
def Store.set (s : Store) (p : FsPath) (n : Node) : Store :=
  (p, n) :: s.eraseP p

/-- Model of `Filesystem.remove` (`MockFilesystem.remove`): unlink a file; fails
(`none`) when the path is absent or a directory. -/
def Store.removeFile (s : Store) (p : FsPath) : Option Store :=
  match s.lookup p with
  | some (.file _ _ _) => some (s.eraseP p)
  | _ => none

/-- Model of `Filesystem.rmtree`: drop every entry at or under `p`
(`MockFilesystem.rmtree` removes `p` itself and every path with the
`str(p) + "/"` prefix). -/
def Store.rmtree (s : Store) (p : FsPath) : Store :=
  s.filter (fun e => !(pathLE p e.1))

/-- The proper non-empty prefixes of a path, shortest first, ending with the
path itself (the chain of directories `mkdir(parents=True)` creates). -/
def pathPrefixes : FsPath → List FsPath
  | [] => []
  | c :: cs => [c] :: (pathPrefixes cs).map (c :: ·)

/-- Model of `Filesystem.mkdir(path, parents=True, exist_ok=True)`: register a
directory node for each missing ancestor and for the path itself; existing
entries are left untouched. -/
def Store.mkdirp (s : Store) (p : FsPath) : Store :=
  (pathPrefixes p).foldl
    (fun st q => if st.existsB q then st else st.set q .dir) s

/-- Model of `Filesystem.listdir`: names of the immediate children of `p`.
`MockFilesystem.listdir` returns them sorted; every use in the code under
verification (the startup scan, the emptiness test in
`_cleanup_empty_dirs`) is insensitive to the order, so the store order is
kept. -/
def Store.listdir (s : Store) (p : FsPath) : List String :=
  s.filterMap (fun e =>
    match e.1.getLast? with
    | some nm => if e.1 == p ++ [nm] then some nm else none
    | none => none)

/-- Model of `Filesystem.rmdir` guarded as `_cleanup_empty_dirs` calls it:
remove the directory when `listdir` reports it empty, otherwise leave the
store unchanged (the surrounding `try/except` swallows both the `listdir`
failure on a non-directory and the not-empty `rmdir` error). -/
def Store.rmdirIfEmpty (s : Store) (p : FsPath) : Store :=
  if s.isDirB p && (s.listdir p).isEmpty then s.eraseP p else s

/-! ## Space sizer (`space.py`)

The repository's `cli.py` imports `calculate_cam_size`, `MIN_CAM_SIZE`,
`SECTOR_SIZE` and `XFS_OVERHEAD_PROPORTION` from `teslausb.space`, and
`tests/test_space.py` tests them, but the copy of `space.py` under `src/`
predates that function and does not define it.  It is therefore modelled from
the spec. -/

/-- Modelled from the spec: `calculate_cam_size`, the live-image sizing
formula of §4.3, which is missing from the `src/` copy of
`teslausb/space.py` (its caller `cli.py` and its tests
`tests/test_space.py` import it from there).  Per the spec:
`overhead = floor(backing_size * 0.03)`;
`raw_cam_size = floor((backing_size - overhead) / 2)`;
`cam_size = floor(raw_cam_size / 512) * 512` (sector-align, never round up).
The constant 0.03 is modelled as the rational 3/100; `Nat` division is
floor division. -/
def calculate_cam_size (backing_size : Nat) : Nat :=
  let overhead := backing_size * 3 / 100
  let raw_cam_size := (backing_size - overhead) / 2
  raw_cam_size / 512 * 512

/-! ## Backoff (`coordinator.py`, `_backoff_intervals` and the idle backoff
of `Coordinator.run`)

`_backoff_intervals(base, maximum)` is a generator; its `n`-th yield is
modelled as a function of `n`.  Intervals are Python floats; every operation
performed (`min`, doubling) is exact on the values involved, so they are
modelled as rationals. -/

/-- The `n`-th interval yielded by `_backoff_intervals base maximum`:
the state starts at `min base maximum` and each step doubles then caps,
`interval = min (interval * 2) maximum`. -/
def backoffInterval (base maximum : ℚ) : Nat → ℚ
  | 0 => min base maximum
  | n + 1 => min (backoffInterval base maximum n * 2) maximum

/-- One coordinator-loop sleep decision (`Coordinator.run`, the
post-cycle branch): given the last archive result's `success` flag and
`files_transferred`, and the current idle-backoff generator position `k`,
return the sleep delay and the next generator position.  A successful cycle
with zero transfers consumes `next(idle_backoff)`; anything else allocates a
fresh generator (position 0) and sleeps `poll_interval`. -/
def coordinatorSleepStep (base maximum : ℚ) (success : Bool)
    (filesTransferred : Nat) (k : Nat) : ℚ × Nat :=
  if success && filesTransferred == 0 then
    (backoffInterval base maximum k, k + 1)
  else
    (base, 0)

/-- The sleep delays of a run of completed cycles (`Coordinator.run` main
loop), one `(success, files_transferred)` pair per cycle, starting from a
fresh idle-backoff generator.  `poll_interval` is the backoff `base`, as in
`CoordinatorConfig` defaults. -/
def coordinatorDelays (base maximum : ℚ) (cycles : List (Bool × Nat)) : List ℚ :=
  (cycles.foldl
    (fun (acc : List ℚ × Nat) c =>
      let (d, k) := coordinatorSleepStep base maximum c.1 c.2 acc.2
      (acc.1 ++ [d], k))
    ([], 0)).1

/-! ## Idle detector (`idle.py`, `ProcIdleDetector.wait_for_idle`)

Each loop iteration sleeps one second and takes one sample; the
caller-supplied timeout therefore bounds the number of iterations, modelled
as `fuel`.  A sample is: the named process was not found, the process's
`/proc/<pid>/io` could not be read, or its cumulative `write_bytes`
counter. -/

inductive IdleState where
  | undetermined
  | writing
  | idle
deriving Repr, DecidableEq

def WRITE_THRESHOLD : Int := 500000

def IDLE_CONFIRM_SECONDS : Nat := 5

inductive IdleSample where
  | noProc : IdleSample
  | noRead : IdleSample
  | counter (writeBytes : Nat) : IdleSample
deriving Repr, DecidableEq

/-- The mutable detector fields reset at the top of `wait_for_idle`:
`_state`, `_prev_written` (−1 encoded as `none`), `_burst_size`,
`_idle_count`. -/
structure IdleDetectorState where
  st : IdleState
  prevWritten : Option Nat
  burstSize : Int
  idleCount : Nat
deriving Repr, DecidableEq

def idleInitState : IdleDetectorState :=
  { st := .undetermined, prevWritten := none, burstSize := 0, idleCount := 0 }

inductive IdleStepResult where
  | done (result : Bool) : IdleStepResult
  | continue_ (s : IdleDetectorState) : IdleStepResult
deriving Repr, DecidableEq

/-- One iteration body of the `wait_for_idle` loop, after the sleep: find the
process, read its counter, and run the three-state transition. -/
def idleStep (s : IdleDetectorState) : IdleSample → IdleStepResult
  | .noProc => .done true
  | .noRead => .continue_ s
  | .counter written =>
    match s.prevWritten with
    | none => .continue_ { s with prevWritten := some written }
    | some prev =>
      let delta : Int := (written : Int) - (prev : Int)
      let s := { s with prevWritten := some written }
      match s.st with
      | .writing =>
        if delta < WRITE_THRESHOLD then
          .continue_ { s with st := .idle, burstSize := 0, idleCount := 0 }
        else
          .continue_ { s with burstSize := s.burstSize + delta }
      | _ =>
        if delta > WRITE_THRESHOLD then
          .continue_ { s with st := .writing, burstSize := delta, idleCount := 0 }
        else
          let ic := s.idleCount + 1
          if IDLE_CONFIRM_SECONDS ≤ ic then .done true
          else .continue_ { s with idleCount := ic }

/-- The `wait_for_idle` loop from iteration `i` with `fuel` remaining
iterations before the timeout expires; returns `false` on timeout. -/
def waitForIdleAux (trace : Nat → IdleSample) :
    Nat → Nat → IdleDetectorState → Bool
  | 0, _, _ => false
  | fuel + 1, i, s =>
    match idleStep s (trace i) with
    | .done r => r
    | .continue_ s' => waitForIdleAux trace fuel (i + 1) s'

/-- Model of `ProcIdleDetector.wait_for_idle` with a timeout of `fuel` one-second
sampling iterations over the sample trace. -/
def waitForIdle (fuel : Nat) (trace : Nat → IdleSample) : Bool :=
  waitForIdleAux trace fuel 0 idleInitState

/-- The detector state after `n` non-returning iterations of the loop on
`trace` (used to state which states a run passes through); `none` once some
earlier iteration returned. -/
def idleStateAfter (trace : Nat → IdleSample) : Nat → Option IdleDetectorState
  | 0 => some idleInitState
  | n + 1 =>
    match idleStateAfter trace n with
    | none => none
    | some s =>
      match idleStep s (trace n) with
      | .done _ => none
      | .continue_ s' => some s'

/-! ## Snapshot store (`snapshot.py`)

The `Snapshot` dataclass fields, with `created_at` an abstract instant and
the runtime-only `refcount` an integer (Python's `int`), so that the
non-negativity claim is meaningful rather than forced by the type. -/

structure SnapshotRec where
  id : Nat
  path : FsPath
  createdAt : Nat
  refcount : Int
deriving Repr, DecidableEq

/-- Model of `snapshot.toc_path`. -/
def SnapshotRec.tocPath (s : SnapshotRec) : FsPath := s.path ++ ["snap.toc"]

/-- Model of `snapshot.metadata_path`. -/
def SnapshotRec.metadataPath (s : SnapshotRec) : FsPath := s.path ++ ["metadata.json"]

/-- Model of `snapshot.image_path`. -/
def SnapshotRec.imagePath (s : SnapshotRec) : FsPath := s.path ++ ["snap.bin"]

/-- The in-memory `SnapshotManager` state: the `_snapshots` table (a dict
keyed by id), `_next_id` and the `_creating` single-flight latch. -/
structure Manager where
  snapshots : List (Nat × SnapshotRec)
  nextId : Nat
  creating : Bool
deriving Repr, DecidableEq

def alookup : List (Nat × SnapshotRec) → Nat → Option SnapshotRec
  | [], _ => none
  | e :: es, id => if e.1 = id then some e.2 else alookup es id

/-- Dict assignment `d[id] = v`: replace the bound value, or append. -/
def aset (l : List (Nat × SnapshotRec)) (id : Nat) (v : SnapshotRec) :
    List (Nat × SnapshotRec) :=
  match l with
  | [] => [(id, v)]
  | e :: es => if e.1 = id then (id, v) :: es else e :: aset es id v

/-- Dict deletion `del d[id]`. -/
def aerase (l : List (Nat × SnapshotRec)) (id : Nat) : List (Nat × SnapshotRec) :=
  l.filter (fun e => !(e.1 == id))

def Manager.lookupSnap (m : Manager) (id : Nat) : Option SnapshotRec :=
  alookup m.snapshots id

def digitChars : Nat → Nat → List Char
  | 0, _ => []
  | fuel + 1, n =>
    if n < 10 then [Nat.digitChar n]
    else digitChars fuel (n / 10) ++ [Nat.digitChar (n % 10)]

/-- Model of `_snap_dir_name`: `f"snap-{snap_id:06d}"` — the id's decimal digits,
left-padded with zeros to at least six characters. -/
def snapDirName (id : Nat) : String :=
  let ds := digitChars (id + 1) id
  String.mk ('s' :: 'n' :: 'a' :: 'p' :: '-' ::
    (List.replicate (6 - ds.length) '0' ++ ds))

/-- Python `int(...)` on the digits a snapshot directory name carries after
the `snap-` prefix: all characters must be decimal digits.  (Python's `int`
also accepts signs and surrounding whitespace, which the store's own
`%06d`-generated names never contain.) -/
def charsToNat? : List Char → Option Nat
  | [] => none
  | cs => cs.foldl
      (fun acc c =>
        match acc with
        | none => none
        | some n => if c.isDigit then some (n * 10 + (c.toNat - '0'.toNat)) else none)
      (some 0)

/-- Parse a directory name from the startup scan: `name.startswith("snap-")`
then `int(name.replace("snap-", ""))`.  (`replace` removes every occurrence
of `snap-`; on the store's own names the prefix is the only one.) -/
def parseSnapName (name : String) : Option Nat :=
  if List.isPrefixOf "snap-".data name.data then charsToNat? (name.data.drop 5)
  else none

/-- Model of `SnapshotManager._reconstruct_snapshot`: rebuild metadata from the
filesystem — creation instant from the image file's mtime, or `now` when the
image is missing. -/
def reconstructSnapshot (store : Store) (snapId : Nat) (snapPath : FsPath)
    (now : Nat) : SnapshotRec :=
  let imagePath := snapPath ++ ["snap.bin"]
  let createdAt :=
    match store.statMtime imagePath with
    | some mt => mt
    | none => now
  { id := snapId, path := snapPath, createdAt := createdAt, refcount := 0 }

/-- Model of `SnapshotManager._remove_snapshot_dir`: rmtree when the path exists
(failures are logged and swallowed; the fault-free store never fails). -/
def removeSnapshotDir (store : Store) (snapPath : FsPath) : Store :=
  if store.existsB snapPath then store.rmtree snapPath else store

/-- The body of the `_load_snapshots` scan for one directory entry `name`:
skip non-`snap-` names, non-directories and unparsable names; remove
directories lacking the completion marker; otherwise load (or reconstruct)
the metadata, register the snapshot and bump `_next_id` to
`max(_next_id, snap_id + 1)`. -/
def loadOneEntry (snapshotsPath : FsPath) (now : Nat)
    (acc : Manager × Store) (name : String) : Manager × Store :=
  let m := acc.1
  let store := acc.2
  match parseSnapName name with
  | none => (m, store)
  | some snapId =>
    let snapPath := snapshotsPath ++ [name]
    if !(store.isDirB snapPath) then (m, store)
    else if !(store.existsB (snapPath ++ ["snap.toc"])) then
      (m, removeSnapshotDir store snapPath)
    else
      let snapshot :=
        match store.readFile (snapPath ++ ["metadata.json"]) with
        | some (.metaJson i p c) =>
          -- metadata parses: `Snapshot.from_dict`, refcount 0 on load
          { id := i, path := p, createdAt := c, refcount := 0 }
        | some _ =>
          -- metadata present but corrupt: reconstruct
          reconstructSnapshot store snapId snapPath now
        | none =>
          -- no metadata: reconstruct (and `_save_metadata` writes it back)
          reconstructSnapshot store snapId snapPath now
      let store' :=
        match store.readFile (snapPath ++ ["metadata.json"]) with
        | none =>
          store.set (snapPath ++ ["metadata.json"])
            (.file (.metaJson snapshot.id snapshot.path snapshot.createdAt) 0 now)
        | some _ => store
      ({ m with
          snapshots := aset m.snapshots snapId snapshot,
          nextId := max m.nextId (snapId + 1) },
       store')

/-- Model of `SnapshotManager._load_snapshots`, run at construction: create the
snapshots root when absent, otherwise scan its entries.  The entry list is
computed up front (Python's `listdir` returns a list) and each body mutates
only that entry's own subtree. -/
def load_snapshots (store : Store) (snapshotsPath : FsPath) (now : Nat) :
    Manager × Store :=
  let m0 : Manager := { snapshots := [], nextId := 0, creating := false }
  if !(store.existsB snapshotsPath) then
    (m0, store.mkdirp snapshotsPath)
  else
    (store.listdir snapshotsPath).foldl (loadOneEntry snapshotsPath now) (m0, store)

/-- A mutating filesystem call, for stating call-order properties. -/
inductive FsEvent where
  | mkdirE (p : FsPath) : FsEvent
  | reflinkE (src dst : FsPath) : FsEvent
  | writeTextE (p : FsPath) : FsEvent
  | removeE (p : FsPath) : FsEvent
  | rmtreeE (p : FsPath) : FsEvent
deriving Repr, DecidableEq

inductive CreateErr where
  /-- Error `SnapshotCreationError("Snapshot creation already in progress")`. -/
  | creationInProgress
  /-- Error `SnapshotCreationError("Failed to copy cam disk: ...")`. -/
  | creationFailed
  /-- An uncaught filesystem error propagating out of `create_snapshot`
  (the completion-marker write is not wrapped in a handler). -/
  | ioError
deriving Repr, DecidableEq

structure CreateOutcome where
  result : Except CreateErr SnapshotRec
  manager : Manager
  store : Store
  events : List FsEvent
deriving Repr

/-- Model of `SnapshotManager.create_snapshot`.  The abstract `Filesystem` may fail at
any call; the environment's choice of failures at the three fallible writes
inside the `try` block is passed in as the flags `reflinkFault`
(`copy_reflink` raises), `metaFault` (the `write_text` inside
`_save_metadata` raises — caught there and logged) and `tocFault` (the
completion-marker `write_text` raises — uncaught).  The reflink also fails
when the source image does not exist.  `events` records the mutating
filesystem calls attempted, in order. -/
def create_snapshot (m : Manager) (store : Store)
    (camDiskPath snapshotsPath : FsPath) (now : Nat)
    (reflinkFault metaFault tocFault : Bool) : CreateOutcome :=
  if m.creating then
    -- raised before the try block: the latch stays as it was, nothing runs
    { result := .error .creationInProgress, manager := m, store := store, events := [] }
  else
    let snapId := m.nextId
    let snapPath := snapshotsPath ++ [snapDirName snapId]
    let store1 := store.mkdirp snapPath
    let binPath := snapPath ++ ["snap.bin"]
    if reflinkFault || !(store1.isFileB camDiskPath) then
      -- `copy_reflink` raised: remove the partial directory, re-raise
      { result := .error .creationFailed,
        manager := { m with creating := false },
        store := removeSnapshotDir store1 snapPath,
        events := [.mkdirE snapPath, .reflinkE camDiskPath binPath, .rmtreeE snapPath] }
    else
      let store2 :=
        match store1.lookup camDiskPath with
        | some (.file d sz mt) => store1.set binPath (.file d sz mt)
        | _ => store1
      let snapshot : SnapshotRec :=
        { id := snapId, path := snapPath, createdAt := now, refcount := 0 }
      -- `_save_metadata`: a write failure is caught and logged there
      let store3 :=
        if metaFault then store2
        else store2.set snapshot.metadataPath (.file (.metaJson snapId snapPath now) 0 now)
      let metadataEvents :=
        [FsEvent.mkdirE snapPath, .reflinkE camDiskPath binPath,
         .writeTextE snapshot.metadataPath]
      if tocFault then
        -- the completion-marker write raised: no cleanup, table untouched
        { result := .error .ioError,
          manager := { m with creating := false },
          store := store3,
          events := metadataEvents ++ [.writeTextE snapshot.tocPath] }
      else
        let store4 := store3.set snapshot.tocPath (.file .empty 0 now)
        { result := .ok snapshot,
          manager := { m with
            snapshots := aset m.snapshots snapId snapshot,
            nextId := snapId + 1,
            creating := false },
          store := store4,
          events := metadataEvents ++ [.writeTextE snapshot.tocPath] }

inductive SnapErr where
  /-- Error `SnapshotNotFoundError`. -/
  | notFound
  /-- Error `SnapshotInUseError`. -/
  | inUse
deriving Repr, DecidableEq

/-- Model of `SnapshotHandle`: the snapshot it references and its `_released` flag. -/
structure Handle where
  snapId : Nat
  released : Bool
deriving Repr, DecidableEq

/-- Model of `SnapshotManager.acquire`: increment the refcount and hand out a fresh
handle. -/
def Manager.acquire (m : Manager) (id : Nat) :
    Except SnapErr (Manager × Handle) :=
  match m.lookupSnap id with
  | none => .error .notFound
  | some snap =>
    .ok ({ m with
            snapshots := aset m.snapshots id { snap with refcount := snap.refcount + 1 } },
         { snapId := id, released := false })

/-- Model of `SnapshotHandle.release`: a no-op on an already-released handle;
otherwise mark released and run `SnapshotManager._release_handle`, which
warns and does nothing for a deleted snapshot and otherwise sets
`refcount = max(0, refcount - 1)`. -/
def releaseHandle (m : Manager) (h : Handle) : Manager × Handle :=
  if h.released then (m, h)
  else
    let h' := { h with released := true }
    match m.lookupSnap h.snapId with
    | none => (m, h')
    | some snap =>
      ({ m with
          snapshots := aset m.snapshots h.snapId
            { snap with refcount := max 0 (snap.refcount - 1) } },
       h')

/-- Model of `SnapshotManager.delete_snapshot`: `False` for an unknown id; raise
`SnapshotInUseError` (leaving everything untouched) when the refcount is
positive; otherwise drop the table entry, remove the completion marker first
(when present), then remove the directory. -/
def delete_snapshot (m : Manager) (store : Store) (id : Nat) :
    (Except SnapErr Bool) × Manager × Store × List FsEvent :=
  match m.lookupSnap id with
  | none => (.ok false, m, store, [])
  | some snap =>
    if snap.refcount > 0 then (.error .inUse, m, store, [])
    else
      let m' := { m with snapshots := aerase m.snapshots id }
      let store1 :=
        if store.existsB snap.tocPath then
          match store.removeFile snap.tocPath with
          | some s' => s'
          | none => store
        else store
      let evs1 : List FsEvent :=
        if store.existsB snap.tocPath then [.removeE snap.tocPath] else []
      let store2 :=
        if store1.existsB snap.path then store1.rmtree snap.path else store1
      let evs2 : List FsEvent :=
        if store1.existsB snap.path then [.rmtreeE snap.path] else []
      (.ok true, m', store2, evs1 ++ evs2)

/-! ### Acquire/release execution model (for the refcount claims)

An operation sequence over one manager: acquire a snapshot id, or release the
`i`-th handle handed out so far.  This drives `Manager.acquire` and
`releaseHandle` exactly as the coordinator's `with`-blocks do, in any
interleaving. -/

inductive RcOp where
  | acq (id : Nat) : RcOp
  | rel (idx : Nat) : RcOp
deriving Repr, DecidableEq

structure RcState where
  manager : Manager
  handles : List Handle
deriving Repr, DecidableEq

def rcStep (s : RcState) : RcOp → RcState
  | .acq id =>
    match s.manager.acquire id with
    | .error _ => s
    | .ok (m', h) => { manager := m', handles := s.handles ++ [h] }
  | .rel i =>
    match s.handles[i]? with
    | none => s
    | some h =>
      let (m', h') := releaseHandle s.manager h
      { manager := m', handles := s.handles.set i h' }

def rcRun (ops : List RcOp) (s : RcState) : RcState :=
  ops.foldl rcStep s

/-- The number of live (acquired, unreleased) handles for snapshot `id`. -/
def countLive (hs : List Handle) (id : Nat) : Nat :=
  (hs.filter (fun h => h.snapId == id && !h.released)).length

/-! ## Archive driver (`archive.py`)

The backend is abstract (`ArchiveBackend`); `archive_snapshot` is modelled
over an arbitrary reachability answer and an arbitrary function from
`(src, dst_name)` to `CopyResult`, plus the trace of `copy_directory` calls
made.  Timestamps are irrelevant to every claim and elided. -/

inductive ArchiveState where
  | pending
  | connecting
  | archiving
  | completed
  | failed
deriving Repr, DecidableEq

/-- Model of `ArchivedFile`: a manifest entry, `relative_path` as its components. -/
structure ArchivedFile where
  relativePath : FsPath
  size : Nat
deriving Repr, DecidableEq

/-- Model of `CopyResult` of `ArchiveBackend.copy_directory`. -/
structure CopyResult where
  success : Bool
  filesTransferred : Nat
  bytesTransferred : Nat
  error : Option String
  archivedFiles : List ArchivedFile
deriving Repr, DecidableEq

/-- Model of `ArchiveResult`, with the manifest dict `archived_files` as an
association list in insertion order. -/
structure ArchiveResult where
  snapshotId : Nat
  state : ArchiveState
  filesTransferred : Nat
  bytesTransferred : Nat
  error : Option String
  archivedFiles : List (String × List ArchivedFile)
deriving Repr, DecidableEq

/-- Model of `ArchiveResult.success`. -/
def ArchiveResult.success (r : ArchiveResult) : Bool :=
  r.state == .completed

/-- The per-directory archive toggles of `ArchiveManager.__init__`. -/
structure ArchiveToggles where
  archiveSaved : Bool
  archiveSentry : Bool
  archiveRecent : Bool
  archiveTrack : Bool
deriving Repr, DecidableEq

/-- Model of `ArchiveManager._get_dirs_to_archive`: the configured logical directories
present on the snapshot mount, in the fixed order SavedClips, SentryClips,
RecentClips, TrackMode. -/
def getDirsToArchive (t : ArchiveToggles) (store : Store)
    (snapshotMount : FsPath) : List (FsPath × String) :=
  let d1 :=
    if t.archiveSaved && store.existsB (snapshotMount ++ ["TeslaCam", "SavedClips"]) then
      [(snapshotMount ++ ["TeslaCam", "SavedClips"], "SavedClips")]
    else []
  let d2 :=
    if t.archiveSentry && store.existsB (snapshotMount ++ ["TeslaCam", "SentryClips"]) then
      [(snapshotMount ++ ["TeslaCam", "SentryClips"], "SentryClips")]
    else []
  let d3 :=
    if t.archiveRecent && store.existsB (snapshotMount ++ ["TeslaCam", "RecentClips"]) then
      [(snapshotMount ++ ["TeslaCam", "RecentClips"], "RecentClips")]
    else []
  let d4 :=
    if t.archiveTrack && store.existsB (snapshotMount ++ ["TeslaTrackMode"]) then
      [(snapshotMount ++ ["TeslaTrackMode"], "TrackMode")]
    else []
  d1 ++ d2 ++ d3 ++ d4

/-- The per-directory loop body of `ArchiveManager.archive_snapshot`: on
success accumulate the counters and, when the manifest is non-empty (Python
truthiness of `copy_result.archived_files`), record it under the logical
name; on failure append `f"{dst_name}: {error}"` to the error list. -/
def archiveOneDir (backendCopy : FsPath → String → CopyResult)
    (acc : ArchiveResult × List String) (d : FsPath × String) :
    ArchiveResult × List String :=
  let (result, errors) := acc
  let cr := backendCopy d.1 d.2
  if cr.success then
    ({ result with
        filesTransferred := result.filesTransferred + cr.filesTransferred,
        bytesTransferred := result.bytesTransferred + cr.bytesTransferred,
        archivedFiles :=
          if !cr.archivedFiles.isEmpty then
            result.archivedFiles ++ [(d.2, cr.archivedFiles)]
          else result.archivedFiles },
     errors)
  else
    (result,
     errors ++ [d.2 ++ ": " ++ (match cr.error with | some e => e | none => "None")])

/-- Model of `ArchiveManager.archive_snapshot`: reachability check, directory
enumeration, per-directory copy, terminal state `COMPLETED` iff no
per-directory error.  Also returns the list of `copy_directory` calls the
backend received, in order. -/
def archive_snapshot (snapshotId : Nat) (reachable : Bool)
    (t : ArchiveToggles) (store : Store) (mountPath : FsPath)
    (backendCopy : FsPath → String → CopyResult) :
    ArchiveResult × List (FsPath × String) :=
  let result : ArchiveResult :=
    { snapshotId := snapshotId, state := .pending, filesTransferred := 0,
      bytesTransferred := 0, error := none, archivedFiles := [] }
  if !reachable then
    ({ result with state := .failed, error := some "Archive not reachable" }, [])
  else
    let dirs := getDirsToArchive t store mountPath
    if dirs.isEmpty then
      ({ result with state := .completed }, [])
    else
      let (result, errors) := dirs.foldl (archiveOneDir backendCopy) (result, [])
      if errors.isEmpty then
        ({ result with state := .completed }, dirs)
      else
        ({ result with
            state := ArchiveState.failed,
            error := some (String.intercalate "; " errors) }, dirs)

/-- Model of `ArchiveManager.DIR_TO_PATH`: logical directory name to its path on the
live image. -/
def DIR_TO_PATH : String → Option FsPath
  | "SavedClips" => some ["TeslaCam", "SavedClips"]
  | "SentryClips" => some ["TeslaCam", "SentryClips"]
  | "RecentClips" => some ["TeslaCam", "RecentClips"]
  | "TrackMode" => some ["TeslaTrackMode"]
  | _ => none

/-- Model of `ArchiveManager._cleanup_empty_dirs`: collect every directory strictly
under `basePath` (the `walk` traversal), deepest first (stable sort on
component count, descending), and `rmdir` each one that is empty. -/
def insertByDepth (x : FsPath) : List FsPath → List FsPath
  | [] => [x]
  | y :: ys =>
    if y.length < x.length then x :: y :: ys else y :: insertByDepth x ys

def Store.descendantDirs (s : Store) (basePath : FsPath) : List FsPath :=
  s.filterMap (fun e =>
    match e.2 with
    | .dir => if pathLE basePath e.1 && !(e.1 == basePath) then some e.1 else none
    | _ => none)

def cleanupEmptyDirs (store : Store) (basePath : FsPath) : Store :=
  if !(store.existsB basePath) then store
  else
    let dirs := (store.descendantDirs basePath).foldr insertByDepth []
    dirs.foldl Store.rmdirIfEmpty store

/-- The per-file body of `ArchiveManager.delete_archived_files`: skip (and
count skipped) a missing file or one whose current size differs from the
manifest size; otherwise unlink it (a failed unlink — e.g. the path is a
directory — is caught and counted skipped). -/
def deleteOneFile (basePath : FsPath) (acc : Nat × Nat × Store)
    (af : ArchivedFile) : Nat × Nat × Store :=
  let (deleted, skipped, store) := acc
  let filePath := basePath ++ af.relativePath
  if !(store.existsB filePath) then
    (deleted, skipped + 1, store)
  else
    match store.statSize filePath with
    | none => (deleted, skipped + 1, store)
    | some currentSize =>
      if currentSize != af.size then
        (deleted, skipped + 1, store)
      else
        match store.removeFile filePath with
        | some store' => (deleted + 1, skipped, store')
        | none => (deleted, skipped + 1, store)

/-- The per-directory body of `delete_archived_files`: unknown logical names
are skipped entirely; otherwise process each manifest entry against
`cam_disk_mount / dir_path`, then clean up empty directories. -/
def deleteOneDir (camDiskMount : FsPath) (acc : Nat × Nat × Store)
    (entry : String × List ArchivedFile) : Nat × Nat × Store :=
  match DIR_TO_PATH entry.1 with
  | none => acc
  | some dirPath =>
    let basePath := camDiskMount ++ dirPath
    let res := entry.2.foldl (deleteOneFile basePath) acc
    (res.1, res.2.1, cleanupEmptyDirs res.2.2 basePath)

/-- Model of `ArchiveManager.delete_archived_files`: returns
`(files_deleted, files_skipped)` and the resulting live-image store. -/
def delete_archived_files (result : ArchiveResult) (store : Store)
    (camDiskMount : FsPath) : Nat × Nat × Store :=
  result.archivedFiles.foldl (deleteOneDir camDiskMount) (0, 0, store)

/-! ## Coordinator decision logic (`coordinator.py`)

The two control decisions the claims are about, read off
`Coordinator._do_archive_cycle` and `Coordinator.run`. -/

/-- Predicate: `Coordinator._do_archive_cycle` runs `_delete_archived_files` iff the
result state is `COMPLETED` and the result has a non-empty manifest and a
live-image path is configured (`coordinator.py` lines 263–271). -/
def coordinatorRunsDeletePhase (r : ArchiveResult) (camDiskConfigured : Bool) :
    Bool :=
  r.state == .completed && (!r.archivedFiles.isEmpty && camDiskConfigured)

/-- Predicate: `Coordinator.run` consumes the idle backoff (rather than resetting it)
iff the last cycle succeeded with zero transfers (`coordinator.py` lines
423–430). -/
def coordinatorIdleBackoffCondition (r : ArchiveResult) : Bool :=
  r.success && r.filesTransferred == 0

/-! ## Concrete scenarios

Stores, managers and backends used to instantiate the claims at concrete
inputs. -/

def snapsRoot : FsPath := ["backingfiles", "snapshots"]

def camDiskP : FsPath := ["backingfiles", "cam_disk.bin"]

def snap3Path : FsPath := ["backingfiles", "snapshots", "snap-000003"]

def snap1Path : FsPath := ["backingfiles", "snapshots", "snap-000001"]

/-- Scenario for the power-cut-mid-create claim: an interrupted creation left
`snap-000003` with its image and metadata but no completion marker. -/
def storeA : Store :=
  [(["backingfiles"], .dir),
   (["backingfiles", "cam_disk.bin"], .file (.blob 100) 100 50),
   (["backingfiles", "snapshots"], .dir),
   (snap3Path, .dir),
   (snap3Path ++ ["snap.bin"], .file (.blob 100) 100 10),
   (snap3Path ++ ["metadata.json"], .file (.metaJson 3 snap3Path 10) 0 10)]

/-- Scenario variant: the same interrupted `snap-000003` next to a complete
`snap-000001` (image, metadata and completion marker). -/
def storeB : Store :=
  storeA ++
  [(snap1Path, .dir),
   (snap1Path ++ ["snap.bin"], .file (.blob 100) 100 5),
   (snap1Path ++ ["metadata.json"], .file (.metaJson 1 snap1Path 5) 0 5),
   (snap1Path ++ ["snap.toc"], .file .empty 0 5)]

def mgr0 : Manager := { snapshots := [], nextId := 0, creating := false }

/-- A bare store for exercising `create_snapshot`: backing root, cam disk
image, empty snapshots root. -/
def storeC4 : Store :=
  [(["backingfiles"], .dir),
   (camDiskP, .file (.blob 100) 100 50),
   (snapsRoot, .dir)]

/-- Creation against `storeC4` in which the environment fails exactly the
metadata write (`_save_metadata`'s `write_text` raises). -/
def createMetaFaultOutcome : CreateOutcome :=
  create_snapshot mgr0 storeC4 camDiskP snapsRoot 7 false true false

/-- The snapshot record of the complete `snap-000001` of `storeB`. -/
def snapRec1 : SnapshotRec :=
  { id := 1, path := snap1Path, createdAt := 5, refcount := 0 }

/-- A manager holding `snap-000001` with one active reference. -/
def mgrInUse : Manager :=
  { snapshots := [(1, { snapRec1 with refcount := 1 })], nextId := 2, creating := false }

/-- A manager holding `snap-000001` unreferenced. -/
def mgrFree : Manager :=
  { snapshots := [(1, snapRec1)], nextId := 2, creating := false }

/-- The store as `load_snapshots` leaves `storeB`: `snap-000003` swept,
`snap-000001` intact. -/
def storeBLoaded : Store := (load_snapshots storeB snapsRoot 99).2

def mountP : FsPath := ["mnt", "snap"]

/-- A snapshot mount carrying `SavedClips` and `SentryClips`. -/
def storeC1 : Store :=
  [(["mnt"], .dir), (mountP, .dir), (mountP ++ ["TeslaCam"], .dir),
   (mountP ++ ["TeslaCam", "SavedClips"], .dir),
   (mountP ++ ["TeslaCam", "SentryClips"], .dir)]

def savedManifest : List ArchivedFile :=
  [{ relativePath := ["event", "front.mp4"], size := 1000 }]

/-- A backend that copies `SavedClips` successfully (manifest of one file)
and fails `SentryClips`. -/
def backendC1 : FsPath → String → CopyResult := fun _ name =>
  if name == "SavedClips" then
    { success := true, filesTransferred := 1, bytesTransferred := 1000,
      error := none, archivedFiles := savedManifest }
  else
    { success := false, filesTransferred := 0, bytesTransferred := 0,
      error := some "copy failed", archivedFiles := [] }

/-- The `ArchiveManager.__init__` default toggles (`archive_recent=False`,
the rest `True`). -/
def togglesDefault : ArchiveToggles :=
  { archiveSaved := true, archiveSentry := true, archiveRecent := false,
    archiveTrack := true }

/-- The archive result of the mixed-success cycle over `storeC1`. -/
def resultC1 : ArchiveResult :=
  (archive_snapshot 7 true togglesDefault storeC1 mountP backendC1).1

/-- An `ArchiveResult` carrying a given manifest dict (the only field
`delete_archived_files` reads). -/
def resultWithManifests (manifests : List (String × List ArchivedFile)) :
    ArchiveResult :=
  { snapshotId := 0, state := .completed, filesTransferred := 0,
    bytesTransferred := 0, error := none, archivedFiles := manifests }

/-- The `(full live-image path, manifest size)` pairs of one manifest-dict
entry; empty for a logical name outside `DIR_TO_PATH` (such entries are
skipped without counting). -/
def entriesOf (camDiskMount : FsPath) (entry : String × List ArchivedFile) :
    List (FsPath × Nat) :=
  match DIR_TO_PATH entry.1 with
  | some dirPath =>
    entry.2.map (fun af => ((camDiskMount ++ dirPath) ++ af.relativePath, af.size))
  | none => []

/-- All `(full path, manifest size)` pairs of a manifest dict, in processing
order. -/
def manifestEntries (camDiskMount : FsPath)
    (manifests : List (String × List ArchivedFile)) : List (FsPath × Nat) :=
  (manifests.map (entriesOf camDiskMount)).flatten

/-- Classification of one manifest entry against a store: `delete_archived_files`
unlinks it iff the path is a regular file whose current size equals the
manifest size (otherwise the entry is counted skipped). -/
def wouldDelete (store : Store) (e : FsPath × Nat) : Bool :=
  store.isFileB e.1 && (store.statSize e.1 == some e.2)

def camMountP : FsPath := ["mnt", "cam"]

/-- A live image on which `event/front.mp4` has grown to 1500 bytes since the
snapshot recorded 1000. -/
def storeC6 : Store :=
  [(["mnt"], .dir), (camMountP, .dir), (camMountP ++ ["TeslaCam"], .dir),
   (camMountP ++ ["TeslaCam", "SavedClips"], .dir),
   (camMountP ++ ["TeslaCam", "SavedClips", "event"], .dir),
   (camMountP ++ ["TeslaCam", "SavedClips", "event", "front.mp4"],
    .file (.blob 1500) 1500 3)]

def manifestC6 : List (String × List ArchivedFile) := [("SavedClips", savedManifest)]

def rcInit : RcState := { manager := mgrFree, handles := [] }

/-- A snapshot mount with no clip directories at all. -/
def storeEmptyMount : Store := [(["mnt"], .dir), (mountP, .dir)]

/-- Every order of two acquires and two releases of `snap-000001` in which
each release follows its own acquire (handles are indexed in acquisition
order). -/
def rcInterleavings : List (List RcOp) :=
  [[.acq 1, .acq 1, .rel 0, .rel 1],
   [.acq 1, .acq 1, .rel 1, .rel 0],
   [.acq 1, .rel 0, .acq 1, .rel 1]]

/-! ## Theorems -/

/-! ### Claim C2 — sizer alignment and bound -/

/-- C2: for every backing size, the live-image size computed by the sizer is
a multiple of 512 and at most `(backing_size − overhead) / 2` where
`overhead = ⌊backing_size · 3/100⌋`; at `backing_size = 118·2^30` it is
moreover strictly below that bound. -/
theorem C2_cam_size_sector_aligned_and_bounded :
    (∀ backing_size : Nat,
        calculate_cam_size backing_size % 512 = 0 ∧
        calculate_cam_size backing_size ≤
          (backing_size - backing_size * 3 / 100) / 2) ∧
    calculate_cam_size (118 * 2 ^ 30) % 512 = 0 ∧
    calculate_cam_size (118 * 2 ^ 30) <
      (118 * 2 ^ 30 - 118 * 2 ^ 30 * 3 / 100) / 2 := by
  refine ⟨fun b => ⟨Nat.mul_mod_left _ _, Nat.div_mul_le_self _ _⟩, ?_, ?_⟩
  · norm_num [calculate_cam_size]
  · norm_num [calculate_cam_size]

/-! ### Claim C8 — backoff shape and idle-backoff reset -/

theorem backoffInterval_closed_form (base maximum : ℚ) (hb : 0 < base)
    (hm : 0 < maximum) (n : ℕ) :
    backoffInterval base maximum n = min (base * 2 ^ n) maximum := by
  induction n with
  | zero => simp [backoffInterval]
  | succ n ih =>
    rw [backoffInterval, ih]
    rcases le_total (base * 2 ^ n) maximum with h | h
    · rw [min_eq_left h, pow_succ, ← mul_assoc]
    · have h3 : maximum ≤ base * 2 ^ (n + 1) := by
        calc maximum ≤ base * 2 ^ n := h
          _ ≤ base * 2 ^ (n + 1) := by
              exact mul_le_mul_of_nonneg_left
                (pow_le_pow_right₀ (by norm_num) (Nat.le_succ n)) hb.le
      rw [min_eq_right h, min_eq_right (by linarith : maximum ≤ maximum * 2),
        min_eq_right h3]

/-- C8: for every backoff generator built from positive `(base, max)`, the
`n`-th yielded interval is `min (base · 2^n) max` — so the sequence is
monotonically non-decreasing and capped at `max` — and the coordinator's
idle-backoff resets on a completed cycle that transferred files: completed
cycles with file counts `[0, 0, 0, 5]` under base 5 and max 300 sleep
`[5, 10, 20, 5]`. -/
theorem C8_backoff_monotone_capped_and_idle_reset :
    (∀ base maximum : ℚ, 0 < base → 0 < maximum →
        (∀ n, backoffInterval base maximum n = min (base * 2 ^ n) maximum) ∧
        (∀ n, backoffInterval base maximum n ≤ backoffInterval base maximum (n + 1)) ∧
        (∀ n, backoffInterval base maximum n ≤ maximum)) ∧
    coordinatorDelays 5 300 [(true, 0), (true, 0), (true, 0), (true, 5)] =
      [5, 10, 20, 5] := by
  refine ⟨fun base maximum hb hm =>
    ⟨backoffInterval_closed_form base maximum hb hm, fun n => ?_, fun n => ?_⟩, ?_⟩
  · rw [backoffInterval_closed_form base maximum hb hm,
      backoffInterval_closed_form base maximum hb hm]
    exact min_le_min
      (mul_le_mul_of_nonneg_left (pow_le_pow_right₀ (by norm_num) (Nat.le_succ n)) hb.le)
      le_rfl
  · rw [backoffInterval_closed_form base maximum hb hm]
    exact min_le_right _ _
  · norm_num [coordinatorDelays, coordinatorSleepStep, backoffInterval, List.foldl]

/-- Witness for C8 at `base = 5`, `max = 300`, `n = 3`. -/
theorem C8_backoff_witness :
    (0 : ℚ) < 5 ∧ (0 : ℚ) < 300 ∧ backoffInterval 5 300 3 ≤ 300 :=
  ⟨by norm_num, by norm_num,
   (C8_backoff_monotone_capped_and_idle_reset.1 5 300 (by norm_num)
      (by norm_num)).2.2 3⟩

/-! ### Claim C7 — quiet-confirmation path of the idle detector -/

theorem idle_quiet_aux (w : Nat → Nat)
    (hq : ∀ k, ((w (k + 1) : Int) - (w k : Int)) ≤ WRITE_THRESHOLD) :
    ∀ fuel i c st b, (st = IdleState.undetermined ∨ st = IdleState.idle) →
      c < 5 → 5 ≤ c + fuel →
      waitForIdleAux (fun j => IdleSample.counter (w j)) fuel (i + 1)
        { st := st, prevWritten := some (w i), burstSize := b, idleCount := c } =
        true := by
  intro fuel
  induction fuel with
  | zero => intro i c st b hst hc h5; omega
  | succ fuel ih =>
    intro i c st b hst hc h5
    have hd : ¬ (WRITE_THRESHOLD < (w (i + 1) : Int) - (w i : Int)) :=
      not_lt.mpr (hq i)
    by_cases h55 : 5 ≤ c + 1
    · rcases hst with h | h <;> subst h <;>
        simp [waitForIdleAux, idleStep, hd, h55, IDLE_CONFIRM_SECONDS]
    · rcases hst with h | h <;> subst h <;>
        simp [waitForIdleAux, idleStep, hd, h55, IDLE_CONFIRM_SECONDS] <;>
        exact ih (i + 1) (c + 1) _ b (by simp) (by omega) (by omega)

theorem idle_quiet_timeout_aux (w : Nat → Nat)
    (hq : ∀ k, ((w (k + 1) : Int) - (w k : Int)) ≤ WRITE_THRESHOLD) :
    ∀ fuel i c st b, (st = IdleState.undetermined ∨ st = IdleState.idle) →
      c + fuel < 5 →
      waitForIdleAux (fun j => IdleSample.counter (w j)) fuel (i + 1)
        { st := st, prevWritten := some (w i), burstSize := b, idleCount := c } =
        false := by
  intro fuel
  induction fuel with
  | zero => intro i c st b hst h5; simp [waitForIdleAux]
  | succ fuel ih =>
    intro i c st b hst h5
    have hd : ¬ (WRITE_THRESHOLD < (w (i + 1) : Int) - (w i : Int)) :=
      not_lt.mpr (hq i)
    have h55 : ¬ (5 ≤ c + 1) := by omega
    rcases hst with h | h <;> subst h <;>
      simp [waitForIdleAux, idleStep, hd, h55, IDLE_CONFIRM_SECONDS] <;>
      exact ih (i + 1) (c + 1) _ b (by simp) (by omega)

theorem idle_quiet_states (w : Nat → Nat)
    (hq : ∀ k, ((w (k + 1) : Int) - (w k : Int)) ≤ WRITE_THRESHOLD) :
    ∀ n s, idleStateAfter (fun i => IdleSample.counter (w i)) n = some s →
      s.st ≠ IdleState.writing ∧
      (∀ m, n = m + 1 → s.prevWritten = some (w m)) := by
  intro n
  induction n with
  | zero =>
    intro s hs
    simp [idleStateAfter, idleInitState] at hs
    subst hs
    exact ⟨by simp [idleInitState], fun m hm => by omega⟩
  | succ n ih =>
    intro s hs
    rw [idleStateAfter] at hs
    cases h : idleStateAfter (fun i => IdleSample.counter (w i)) n with
    | none => rw [h] at hs; exact absurd hs (by simp)
    | some s0 =>
      rw [h] at hs
      obtain ⟨hst0, hprev0⟩ := ih s0 h
      obtain ⟨st0, prev0, b0, c0⟩ := s0
      cases n with
      | zero =>
        -- first iteration: the baseline sample
        have hinit : idleStateAfter (fun i => IdleSample.counter (w i)) 0 =
            some idleInitState := rfl
        rw [hinit] at h
        injection h with h
        rw [← h] at hs
        simp [idleStep, idleInitState] at hs
        subst hs
        exact ⟨by simp [idleInitState], fun m hm => by simp_all⟩
      | succ m =>
        have hp : prev0 = some (w m) := hprev0 m rfl
        subst hp
        have hd : ¬ (WRITE_THRESHOLD < (w (m + 1) : Int) - (w m : Int)) :=
          not_lt.mpr (hq m)
        cases st0 with
        | writing => exact absurd rfl hst0
        | undetermined =>
          by_cases h55 : 5 ≤ c0 + 1 <;>
            simp [idleStep, hd, h55, IDLE_CONFIRM_SECONDS] at hs <;>
            first
            | exact absurd hs (by simp)
            | (subst hs; exact ⟨by simp, fun m2 hm2 => by simp_all⟩)
        | idle =>
          by_cases h55 : 5 ≤ c0 + 1 <;>
            simp [idleStep, hd, h55, IDLE_CONFIRM_SECONDS] at hs <;>
            first
            | exact absurd hs (by simp)
            | (subst hs; exact ⟨by simp, fun m2 hm2 => by simp_all⟩)

/-- C7: for every sample trace whose per-second write-byte deltas all stay at
or below the 500 000 threshold, `wait_for_idle` succeeds once the timeout
allows the baseline sample plus 5 consecutive quiet samples (and fails for
any smaller timeout), and no state the run passes through is WRITING; a trace
whose first sample finds no process returns idle immediately; a zero timeout
is a soft failure (`false`). -/
theorem C7_idle_quiet_confirmation_and_timeout :
    (∀ w : Nat → Nat,
        (∀ k, ((w (k + 1) : Int) - (w k : Int)) ≤ WRITE_THRESHOLD) →
        (∀ fuel, 6 ≤ fuel →
            waitForIdle fuel (fun i => IdleSample.counter (w i)) = true) ∧
        (∀ fuel, fuel ≤ 5 →
            waitForIdle fuel (fun i => IdleSample.counter (w i)) = false) ∧
        (∀ n s, idleStateAfter (fun i => IdleSample.counter (w i)) n = some s →
            s.st ≠ IdleState.writing)) ∧
    (∀ (trace : Nat → IdleSample) fuel, trace 0 = IdleSample.noProc →
        1 ≤ fuel → waitForIdle fuel trace = true) ∧
    (∀ trace : Nat → IdleSample, waitForIdle 0 trace = false) := by
  refine ⟨fun w hq => ⟨fun fuel h6 => ?_, fun fuel h5 => ?_, fun n s hs =>
    (idle_quiet_states w hq n s hs).1⟩, fun trace fuel h0 h1 => ?_, fun trace => rfl⟩
  · obtain ⟨f, rfl⟩ : ∃ f, fuel = f + 6 := ⟨fuel - 6, by omega⟩
    have he : f + 6 = (f + 5) + 1 := rfl
    rw [waitForIdle, he]
    simp only [waitForIdleAux, idleStep, idleInitState]
    exact idle_quiet_aux w hq (f + 5) 0 0 .undetermined 0 (by simp) (by omega)
      (by omega)
  · match fuel, h5 with
    | 0, _ => rfl
    | (f + 1), h5 =>
      rw [waitForIdle]
      simp only [waitForIdleAux, idleStep, idleInitState]
      exact idle_quiet_timeout_aux w hq f 0 0 .undetermined 0 (by simp)
        (by omega)
  · obtain ⟨f, rfl⟩ : ∃ f, fuel = f + 1 := ⟨fuel - 1, by omega⟩
    rw [waitForIdle, waitForIdleAux, h0]
    rfl

/-- Witness for C7: the all-quiet constant-counter trace with a 6-sample
budget confirms idle. -/
theorem C7_idle_witness :
    (∀ k : Nat,
        ((((fun _ => 0) : Nat → Nat) (k + 1) : Int) -
          (((fun _ => 0) : Nat → Nat) k : Int)) ≤ WRITE_THRESHOLD) ∧
    waitForIdle 6 (fun i => IdleSample.counter (((fun _ => 0) : Nat → Nat) i)) =
      true :=
  ⟨fun k => by simp [WRITE_THRESHOLD],
   (C7_idle_quiet_confirmation_and_timeout.1 (fun _ => 0)
      (fun k => by simp [WRITE_THRESHOLD])).1 6 (by norm_num)⟩

/-! ### Claim C10 — zero-transfer cycle when no clip directory exists -/

/-- C10: when the backend is reachable but none of the configured clip
directories exist on the snapshot mount, the archive terminates COMPLETED
with zero files, zero bytes and an empty manifest, never calls
`copy_directory`, and such a cycle satisfies the coordinator's idle-backoff
condition. -/
theorem C10_unreachable_dirs_zero_transfer_cycle :
    ∀ (snapshotId : Nat) (t : ArchiveToggles) (store : Store)
      (mountPath : FsPath) (backendCopy : FsPath → String → CopyResult),
      (t.archiveSaved = true →
        store.existsB (mountPath ++ ["TeslaCam", "SavedClips"]) = false) →
      (t.archiveSentry = true →
        store.existsB (mountPath ++ ["TeslaCam", "SentryClips"]) = false) →
      (t.archiveRecent = true →
        store.existsB (mountPath ++ ["TeslaCam", "RecentClips"]) = false) →
      (t.archiveTrack = true →
        store.existsB (mountPath ++ ["TeslaTrackMode"]) = false) →
      (archive_snapshot snapshotId true t store mountPath backendCopy).1.state =
          ArchiveState.completed ∧
      (archive_snapshot snapshotId true t store mountPath backendCopy).1.filesTransferred = 0 ∧
      (archive_snapshot snapshotId true t store mountPath backendCopy).1.bytesTransferred = 0 ∧
      (archive_snapshot snapshotId true t store mountPath backendCopy).1.archivedFiles = [] ∧
      (archive_snapshot snapshotId true t store mountPath backendCopy).2 = [] ∧
      coordinatorIdleBackoffCondition
        (archive_snapshot snapshotId true t store mountPath backendCopy).1 = true := by
  intro sid t store mount bc h1 h2 h3 h4
  have hdirs : getDirsToArchive t store mount = [] := by
    unfold getDirsToArchive
    obtain ⟨s1, s2, s3, s4⟩ := t
    cases s1 <;> cases s2 <;> cases s3 <;> cases s4 <;> simp_all
  simp [archive_snapshot, hdirs, coordinatorIdleBackoffCondition,
    ArchiveResult.success]

/-- Witness for C10 on a mount with no clip directories and the default
toggles. -/
theorem C10_witness :
    (togglesDefault.archiveSaved = true →
      storeEmptyMount.existsB (mountP ++ ["TeslaCam", "SavedClips"]) = false) ∧
    (archive_snapshot 7 true togglesDefault storeEmptyMount mountP backendC1).1.state =
      ArchiveState.completed :=
  ⟨fun _ => by decide,
   (C10_unreachable_dirs_zero_transfer_cycle 7 togglesDefault storeEmptyMount
      mountP backendC1 (fun _ => by decide) (fun _ => by decide)
      (fun _ => by decide) (fun _ => by decide)).1⟩

/-! ### Claim C1 — manifests preserved; delete phase gated on COMPLETED -/

theorem archiveOneDir_preserves (bc : FsPath → String → CopyResult)
    (acc : ArchiveResult × List String) (d : FsPath × String)
    (x : String × List ArchivedFile) (hx : x ∈ acc.1.archivedFiles) :
    x ∈ (archiveOneDir bc acc d).1.archivedFiles := by
  obtain ⟨res, errs⟩ := acc
  unfold archiveOneDir
  by_cases hs : (bc d.1 d.2).success
  · simp only [hs, if_true]
    split <;> simp [hx]
  · simp [hs, hx]

theorem archive_foldl_preserves (bc : FsPath → String → CopyResult) :
    ∀ (dirs : List (FsPath × String)) (acc : ArchiveResult × List String)
      (x : String × List ArchivedFile), x ∈ acc.1.archivedFiles →
      x ∈ (dirs.foldl (archiveOneDir bc) acc).1.archivedFiles := by
  intro dirs
  induction dirs with
  | nil => intro acc x hx; exact hx
  | cons e es ih =>
    intro acc x hx
    exact ih _ x (archiveOneDir_preserves bc acc e x hx)

theorem archive_foldl_adds (bc : FsPath → String → CopyResult) :
    ∀ (dirs : List (FsPath × String)) (acc : ArchiveResult × List String)
      (d : FsPath × String), d ∈ dirs → (bc d.1 d.2).success = true →
      (bc d.1 d.2).archivedFiles ≠ [] →
      (d.2, (bc d.1 d.2).archivedFiles) ∈
        (dirs.foldl (archiveOneDir bc) acc).1.archivedFiles := by
  intro dirs
  induction dirs with
  | nil => intro acc d hd; exact absurd hd (List.not_mem_nil d)
  | cons e es ih =>
    intro acc d hd hs hne
    rcases List.mem_cons.mp hd with h | h
    · subst h
      apply archive_foldl_preserves bc es
      obtain ⟨res, errs⟩ := acc
      simp [archiveOneDir, hs, hne]
    · exact ih _ d h hs hne

/-- C1 (amended): successfully copied, non-empty manifests are preserved on
the archive result whatever happened to other directories; but the
coordinator runs the delete-from-live phase only when the result state is
COMPLETED — a FAILED result never enters the delete phase, however many
manifests it carries. -/
theorem C1_amended_manifests_kept_delete_gated_on_completed :
    (∀ (snapshotId : Nat) (t : ArchiveToggles) (store : Store)
        (mountPath : FsPath) (backendCopy : FsPath → String → CopyResult),
        ∀ d ∈ getDirsToArchive t store mountPath,
          (backendCopy d.1 d.2).success = true →
          (backendCopy d.1 d.2).archivedFiles ≠ [] →
          (d.2, (backendCopy d.1 d.2).archivedFiles) ∈
            (archive_snapshot snapshotId true t store mountPath
              backendCopy).1.archivedFiles) ∧
    (∀ (r : ArchiveResult) (camCfg : Bool), r.state = ArchiveState.failed →
        coordinatorRunsDeletePhase r camCfg = false) ∧
    (∀ r : ArchiveResult, r.state = ArchiveState.completed →
        r.archivedFiles ≠ [] → coordinatorRunsDeletePhase r true = true) := by
  refine ⟨?_, ?_, ?_⟩
  · intro sid t store mount bc d hd hs hne
    unfold archive_snapshot
    cases hdir : (getDirsToArchive t store mount).isEmpty with
    | true =>
      rw [List.isEmpty_iff] at hdir
      rw [hdir] at hd
      exact absurd hd (List.not_mem_nil d)
    | false =>
      rcases hsplit : (getDirsToArchive t store mount).foldl (archiveOneDir bc)
          ({ snapshotId := sid, state := .pending, filesTransferred := 0,
             bytesTransferred := 0, error := none, archivedFiles := [] }, [])
        with ⟨res, errs⟩
      have hadd := archive_foldl_adds bc (getDirsToArchive t store mount)
        ({ snapshotId := sid, state := .pending, filesTransferred := 0,
           bytesTransferred := 0, error := none, archivedFiles := [] }, [])
        d hd hs hne
      rw [hsplit] at hadd
      by_cases herrs : errs.isEmpty <;>
        simp [hdir, hsplit, herrs, hadd]
  · intro r camCfg hr
    simp [coordinatorRunsDeletePhase, hr]
  · intro r hr hne
    simp [coordinatorRunsDeletePhase, hr, hne]

/-- Counterexample to C1 as stated: a cycle whose `SavedClips` copy succeeded
with a one-file manifest while `SentryClips` failed ends FAILED with the
manifest preserved, yet the coordinator's delete-phase predicate is false
even with a live image configured. -/
theorem C1_counterexample_failed_cycle_skips_delete :
    resultC1.state = ArchiveState.failed ∧
    resultC1.archivedFiles = [("SavedClips", savedManifest)] ∧
    coordinatorRunsDeletePhase resultC1 true = false := by
  refine ⟨by decide, by decide, by decide⟩

/-- Witness for C1 (amended), at the mixed-success scenario: the SavedClips
manifest is on the failed result. -/
theorem C1_amended_witness :
    ((mountP ++ ["TeslaCam", "SavedClips"], "SavedClips") ∈
        getDirsToArchive togglesDefault storeC1 mountP ∧
      (backendC1 (mountP ++ ["TeslaCam", "SavedClips"]) "SavedClips").success = true ∧
      (backendC1 (mountP ++ ["TeslaCam", "SavedClips"]) "SavedClips").archivedFiles ≠ []) ∧
    ("SavedClips",
      (backendC1 (mountP ++ ["TeslaCam", "SavedClips"]) "SavedClips").archivedFiles) ∈
      (archive_snapshot 7 true togglesDefault storeC1 mountP backendC1).1.archivedFiles :=
  ⟨⟨by decide, by decide, by decide⟩,
   C1_amended_manifests_kept_delete_gated_on_completed.1 7 togglesDefault storeC1
     mountP backendC1 (mountP ++ ["TeslaCam", "SavedClips"], "SavedClips")
     (by decide) (by decide) (by decide)⟩

/-! ### Store lemmas -/

theorem pathLE_refl (p : FsPath) : pathLE p p = true := by
  induction p with
  | nil => rfl
  | cons c cs ih => simp [pathLE, ih]

theorem Store.lookup_eraseP_self (s : Store) (p : FsPath) :
    (s.eraseP p).lookup p = none := by
  induction s with
  | nil => rfl
  | cons e es ih =>
    unfold Store.eraseP at *
    by_cases he : e.1 = p
    · rw [List.filter_cons_of_neg (by simp [he])]
      exact ih
    · rw [List.filter_cons_of_pos (by simp [he]), Store.lookup, if_neg he]
      exact ih

theorem Store.lookup_eraseP_ne (s : Store) (p q : FsPath) (h : q ≠ p) :
    (s.eraseP p).lookup q = s.lookup q := by
  induction s with
  | nil => rfl
  | cons e es ih =>
    unfold Store.eraseP at *
    by_cases he : e.1 = p
    · have hne : e.1 ≠ q := fun hq => h (hq ▸ he ▸ rfl)
      rw [List.filter_cons_of_neg (by simp [he]), ih, Store.lookup, if_neg hne]
    · rw [List.filter_cons_of_pos (by simp [he]), Store.lookup, Store.lookup]
      by_cases heq : e.1 = q
      · rw [if_pos heq, if_pos heq]
      · rw [if_neg heq, if_neg heq, ih]

theorem Store.lookup_set_self (s : Store) (p : FsPath) (n : Node) :
    (s.set p n).lookup p = some n := by
  simp [Store.set, Store.lookup]

theorem Store.lookup_set_ne (s : Store) (p : FsPath) (n : Node) (q : FsPath)
    (h : q ≠ p) : (s.set p n).lookup q = s.lookup q := by
  have : p ≠ q := fun hp => h hp.symm
  simp [Store.set, Store.lookup, this, Store.lookup_eraseP_ne s p q h]

theorem Store.lookup_rmtree_of_le (s : Store) (p q : FsPath)
    (h : pathLE p q = true) : (s.rmtree p).lookup q = none := by
  induction s with
  | nil => rfl
  | cons e es ih =>
    unfold Store.rmtree at *
    by_cases hp : pathLE p e.1 = true
    · rw [List.filter_cons_of_neg (by simp [hp])]
      exact ih
    · have hne : e.1 ≠ q := fun hq => hp (hq ▸ h)
      rw [List.filter_cons_of_pos (by simp [Bool.not_eq_true] at hp ⊢; exact hp),
        Store.lookup, if_neg hne]
      exact ih

theorem Store.lookup_rmtree_of_not_le (s : Store) (p q : FsPath)
    (h : ¬ pathLE p q = true) : (s.rmtree p).lookup q = s.lookup q := by
  induction s with
  | nil => rfl
  | cons e es ih =>
    unfold Store.rmtree at *
    by_cases hp : pathLE p e.1 = true
    · have hne : e.1 ≠ q := fun hq => h (hq ▸ hp)
      rw [List.filter_cons_of_neg (by simp [hp]), ih, Store.lookup, if_neg hne]
    · rw [List.filter_cons_of_pos (by simp [Bool.not_eq_true] at hp ⊢; exact hp),
        Store.lookup, Store.lookup]
      by_cases heq : e.1 = q
      · rw [if_pos heq, if_pos heq]
      · rw [if_neg heq, if_neg heq, ih]

theorem mkdirpFold_lookup_of_some (L : List FsPath) :
    ∀ (s : Store) (q : FsPath) (n : Node), s.lookup q = some n →
      (L.foldl (fun st r => if st.existsB r then st else st.set r .dir) s).lookup q =
        some n := by
  induction L with
  | nil => intro s q n h; exact h
  | cons r L ih =>
    intro s q n h
    rw [List.foldl_cons]
    apply ih
    by_cases he : s.existsB r = true
    · rw [if_pos he]; exact h
    · have hq : q ≠ r := by
        intro hq
        subst hq
        rw [Store.existsB, h] at he
        exact he rfl
      rw [if_neg he, Store.lookup_set_ne s r .dir q hq]
      exact h

theorem mkdirpFold_existsB_mono (L : List FsPath) :
    ∀ (s : Store) (q : FsPath), s.existsB q = true →
      (L.foldl (fun st r => if st.existsB r then st else st.set r .dir) s).existsB q =
        true := by
  induction L with
  | nil => intro s q h; exact h
  | cons r L ih =>
    intro s q h
    rw [List.foldl_cons]
    apply ih
    by_cases he : s.existsB r = true
    · rw [if_pos he]; exact h
    · rw [if_neg he]
      by_cases hq : q = r
      · subst hq
        rw [Store.existsB, Store.lookup_set_self]
        rfl
      · rw [Store.existsB, Store.lookup_set_ne s r .dir q hq]
        exact h

theorem mkdirpFold_existsB_of_mem (L : List FsPath) :
    ∀ (s : Store) (q : FsPath), q ∈ L →
      (L.foldl (fun st r => if st.existsB r then st else st.set r .dir) s).existsB q =
        true := by
  induction L with
  | nil => intro s q h; exact absurd h (List.not_mem_nil q)
  | cons r L ih =>
    intro s q h
    rw [List.foldl_cons]
    rcases List.mem_cons.mp h with h | h
    · subst h
      apply mkdirpFold_existsB_mono
      by_cases he : s.existsB q = true
      · rw [if_pos he]; exact he
      · rw [if_neg he, Store.existsB, Store.lookup_set_self]
        rfl
    · exact ih _ q h

theorem pathPrefixes_self_mem (p : FsPath) (hp : p ≠ []) : p ∈ pathPrefixes p := by
  induction p with
  | nil => exact absurd rfl hp
  | cons c cs ih =>
    cases cs with
    | nil => simp [pathPrefixes]
    | cons c2 cs2 =>
      simp only [pathPrefixes, List.mem_cons]
      right
      exact List.mem_map.mpr ⟨c2 :: cs2, ih (by simp), rfl⟩

theorem pathPrefixes_length (p : FsPath) :
    ∀ r ∈ pathPrefixes p, r.length ≤ p.length := by
  induction p with
  | nil => intro r hr; exact absurd hr (List.not_mem_nil r)
  | cons c cs ih =>
    intro r hr
    rcases List.mem_cons.mp hr with h | h
    · subst h; simp
    · obtain ⟨r2, hr2, rfl⟩ := List.mem_map.mp h
      simpa using ih r2 hr2

theorem Store.existsB_mkdirp_self (s : Store) (p : FsPath) (hp : p ≠ []) :
    (s.mkdirp p).existsB p = true :=
  mkdirpFold_existsB_of_mem (pathPrefixes p) s p (pathPrefixes_self_mem p hp)

theorem Store.lookup_mkdirp_of_some (s : Store) (p q : FsPath) (n : Node)
    (h : s.lookup q = some n) : (s.mkdirp p).lookup q = some n :=
  mkdirpFold_lookup_of_some (pathPrefixes p) s q n h

theorem Store.lookup_mkdirp_of_longer (s : Store) (p q : FsPath)
    (h : p.length < q.length) : (s.mkdirp p).lookup q = s.lookup q := by
  unfold Store.mkdirp
  have : ∀ (L : List FsPath), (∀ r ∈ L, r ≠ q) → ∀ s : Store,
      (L.foldl (fun st r => if st.existsB r then st else st.set r .dir) s).lookup q =
        s.lookup q := by
    intro L
    induction L with
    | nil => intro _ s; rfl
    | cons r L ih =>
      intro hL s
      rw [List.foldl_cons]
      rw [ih (fun r2 h2 => hL r2 (List.mem_cons_of_mem r h2))]
      by_cases he : s.existsB r = true
      · simp [he]
      · simp [he, Store.lookup_set_ne s r .dir q (fun hq =>
          (hL r (List.mem_cons_self r L)) hq.symm)]
  exact this (pathPrefixes p)
    (fun r hr hrq => absurd (hrq ▸ pathPrefixes_length p r hr) (by omega)) s

/-! ### Claim C4 — creation order, faults, and the single-flight latch -/

theorem append_singleton_ne (p : FsPath) (a b : String) (h : a ≠ b) :
    p ++ [a] ≠ p ++ [b] := by
  intro he
  exact h (by simpa using he)

theorem ne_append_singleton (p : FsPath) (a : String) : p ≠ p ++ [a] := by
  intro he
  simpa using congrArg List.length he

theorem removeSnapshotDir_existsB_false (s : Store) (p : FsPath) :
    (removeSnapshotDir s p).existsB p = false := by
  unfold removeSnapshotDir
  cases hb : s.existsB p with
  | true =>
    rw [if_pos rfl, Store.existsB, Store.lookup_rmtree_of_le s p p (pathLE_refl p)]
    rfl
  | false =>
    rw [if_neg Bool.false_ne_true]
    exact hb

/-- Computation of `create_snapshot` when the latch is free, the reflink does
not fault, and the source image is the file `(.file d sz mt)`, under an
arbitrary metadata-fault and marker-fault choice. -/
theorem create_snapshot_eq (m : Manager) (store : Store)
    (camDiskPath snapshotsPath : FsPath) (now : Nat) (mf tf : Bool)
    (hcr : m.creating = false) (d : FileData) (sz mt : Nat)
    (hl : store.lookup camDiskPath = some (.file d sz mt)) :
    create_snapshot m store camDiskPath snapshotsPath now false mf tf =
      { result :=
          if tf then .error .ioError
          else .ok { id := m.nextId,
                     path := snapshotsPath ++ [snapDirName m.nextId],
                     createdAt := now, refcount := 0 },
        manager :=
          if tf then { m with creating := false }
          else { m with
                  snapshots := aset m.snapshots m.nextId
                    { id := m.nextId,
                      path := snapshotsPath ++ [snapDirName m.nextId],
                      createdAt := now, refcount := 0 },
                  nextId := m.nextId + 1, creating := false },
        store :=
          (fun s3 => if tf then s3
            else s3.set (snapshotsPath ++ [snapDirName m.nextId] ++ ["snap.toc"])
              (.file .empty 0 now))
          (if mf then
            (store.mkdirp (snapshotsPath ++ [snapDirName m.nextId])).set
              (snapshotsPath ++ [snapDirName m.nextId] ++ ["snap.bin"])
              (.file d sz mt)
           else
            ((store.mkdirp (snapshotsPath ++ [snapDirName m.nextId])).set
              (snapshotsPath ++ [snapDirName m.nextId] ++ ["snap.bin"])
              (.file d sz mt)).set
              (snapshotsPath ++ [snapDirName m.nextId] ++ ["metadata.json"])
              (.file (.metaJson m.nextId (snapshotsPath ++ [snapDirName m.nextId]) now)
                0 now)),
        events :=
          [.mkdirE (snapshotsPath ++ [snapDirName m.nextId]),
           .reflinkE camDiskPath
             (snapshotsPath ++ [snapDirName m.nextId] ++ ["snap.bin"]),
           .writeTextE (snapshotsPath ++ [snapDirName m.nextId] ++ ["metadata.json"]),
           .writeTextE (snapshotsPath ++ [snapDirName m.nextId] ++ ["snap.toc"])] } := by
  have hl1 : (store.mkdirp (snapshotsPath ++ [snapDirName m.nextId])).lookup
      camDiskPath = some (.file d sz mt) :=
    Store.lookup_mkdirp_of_some _ _ _ _ hl
  have hf1 : (store.mkdirp (snapshotsPath ++ [snapDirName m.nextId])).isFileB
      camDiskPath = true := by
    rw [Store.isFileB, hl1]
  unfold create_snapshot
  rw [if_neg (by rw [hcr]; exact Bool.false_ne_true),
    if_neg (by rw [hf1]; simp), hl1]
  cases mf <;> cases tf <;> rfl

/-- C4 (amended): creation attempts the filesystem calls in the order mkdir,
reflink, metadata write, completion-marker write — the marker last; a reflink
failure removes the partial directory and fails the operation without
touching the table; a metadata-write failure is logged and ignored, so
creation still succeeds (this is where the original claim fails); a
marker-write failure propagates, leaving the markerless partial directory
for the next load to sweep; and a second create while one is in flight fails
immediately with creation-in-progress, leaving store, table and event trace
untouched. -/
theorem C4_amended_create_marker_last_and_fault_behaviour :
    (∀ (m : Manager) (store : Store) (camDiskPath snapshotsPath : FsPath)
        (now : Nat), m.creating = false → store.isFileB camDiskPath = true →
        ((create_snapshot m store camDiskPath snapshotsPath now false false false).result =
            .ok { id := m.nextId, path := snapshotsPath ++ [snapDirName m.nextId],
                  createdAt := now, refcount := 0 } ∧
         (create_snapshot m store camDiskPath snapshotsPath now false false false).events =
            [.mkdirE (snapshotsPath ++ [snapDirName m.nextId]),
             .reflinkE camDiskPath (snapshotsPath ++ [snapDirName m.nextId] ++ ["snap.bin"]),
             .writeTextE (snapshotsPath ++ [snapDirName m.nextId] ++ ["metadata.json"]),
             .writeTextE (snapshotsPath ++ [snapDirName m.nextId] ++ ["snap.toc"])] ∧
         (create_snapshot m store camDiskPath snapshotsPath now false false false).store.existsB
            (snapshotsPath ++ [snapDirName m.nextId] ++ ["snap.toc"]) = true ∧
         (create_snapshot m store camDiskPath snapshotsPath now false false false).store.existsB
            (snapshotsPath ++ [snapDirName m.nextId] ++ ["metadata.json"]) = true ∧
         (create_snapshot m store camDiskPath snapshotsPath now false false false).store.existsB
            (snapshotsPath ++ [snapDirName m.nextId] ++ ["snap.bin"]) = true)) ∧
    (∀ (m : Manager) (store : Store) (camDiskPath snapshotsPath : FsPath)
        (now : Nat) (mf tf : Bool), m.creating = false →
        ((create_snapshot m store camDiskPath snapshotsPath now true mf tf).result =
            .error .creationFailed ∧
         (create_snapshot m store camDiskPath snapshotsPath now true mf tf).store.existsB
            (snapshotsPath ++ [snapDirName m.nextId]) = false ∧
         (create_snapshot m store camDiskPath snapshotsPath now true mf tf).manager.snapshots =
            m.snapshots ∧
         (create_snapshot m store camDiskPath snapshotsPath now true mf tf).manager.nextId =
            m.nextId ∧
         (create_snapshot m store camDiskPath snapshotsPath now true mf tf).events =
            [.mkdirE (snapshotsPath ++ [snapDirName m.nextId]),
             .reflinkE camDiskPath (snapshotsPath ++ [snapDirName m.nextId] ++ ["snap.bin"]),
             .rmtreeE (snapshotsPath ++ [snapDirName m.nextId])])) ∧
    (∀ (m : Manager) (store : Store) (camDiskPath snapshotsPath : FsPath)
        (now : Nat), m.creating = false → store.isFileB camDiskPath = true →
        ((create_snapshot m store camDiskPath snapshotsPath now false true false).result =
            .ok { id := m.nextId, path := snapshotsPath ++ [snapDirName m.nextId],
                  createdAt := now, refcount := 0 } ∧
         (create_snapshot m store camDiskPath snapshotsPath now false true false).store.existsB
            (snapshotsPath ++ [snapDirName m.nextId] ++ ["snap.toc"]) = true)) ∧
    (∀ (m : Manager) (store : Store) (camDiskPath snapshotsPath : FsPath)
        (now : Nat), m.creating = false → store.isFileB camDiskPath = true →
        store.lookup (snapshotsPath ++ [snapDirName m.nextId] ++ ["snap.toc"]) = none →
        ((create_snapshot m store camDiskPath snapshotsPath now false false true).result =
            .error .ioError ∧
         (create_snapshot m store camDiskPath snapshotsPath now false false true).store.existsB
            (snapshotsPath ++ [snapDirName m.nextId]) = true ∧
         (create_snapshot m store camDiskPath snapshotsPath now false false true).store.existsB
            (snapshotsPath ++ [snapDirName m.nextId] ++ ["snap.toc"]) = false ∧
         (create_snapshot m store camDiskPath snapshotsPath now false false true).manager.snapshots =
            m.snapshots)) ∧
    (∀ (m : Manager) (store : Store) (camDiskPath snapshotsPath : FsPath)
        (now : Nat) (rf mf tf : Bool), m.creating = true →
        create_snapshot m store camDiskPath snapshotsPath now rf mf tf =
          { result := .error .creationInProgress, manager := m, store := store,
            events := [] }) := by
  have hfile : ∀ (store : Store) (camDiskPath : FsPath),
      store.isFileB camDiskPath = true →
      ∃ d sz mt, store.lookup camDiskPath = some (.file d sz mt) := by
    intro store camDiskPath hcam
    unfold Store.isFileB at hcam
    cases hl : store.lookup camDiskPath with
    | none => rw [hl] at hcam; exact absurd hcam (by simp)
    | some n =>
      cases n with
      | dir => rw [hl] at hcam; exact absurd hcam (by simp)
      | file d sz mt => exact ⟨d, sz, mt, rfl⟩
  refine ⟨?_, ?_, ?_, ?_, ?_⟩
  · intro m store camP snapsP now hcr hcam
    obtain ⟨d, sz, mt, hl⟩ := hfile store camP hcam
    rw [create_snapshot_eq m store camP snapsP now false false hcr d sz mt hl]
    refine ⟨rfl, rfl, ?_, ?_, ?_⟩
    · show ((Store.set _ _ _).lookup _).isSome = true
      rw [Store.lookup_set_self]
      rfl
    · show ((Store.set _ _ _).lookup _).isSome = true
      rw [Store.lookup_set_ne _ _ _ _
          (append_singleton_ne _ "metadata.json" "snap.toc" (by decide)),
        if_neg Bool.false_ne_true,
        Store.lookup_set_self]
      rfl
    · show ((Store.set _ _ _).lookup _).isSome = true
      rw [Store.lookup_set_ne _ _ _ _
          (append_singleton_ne _ "snap.bin" "snap.toc" (by decide)),
        if_neg Bool.false_ne_true,
        Store.lookup_set_ne _ _ _ _
          (append_singleton_ne _ "snap.bin" "metadata.json" (by decide)),
        Store.lookup_set_self]
      rfl
  · intro m store camP snapsP now mf tf hcr
    unfold create_snapshot
    rw [if_neg (by rw [hcr]; exact Bool.false_ne_true), if_pos (by simp)]
    exact ⟨rfl, removeSnapshotDir_existsB_false _ _, rfl, rfl, rfl⟩
  · intro m store camP snapsP now hcr hcam
    obtain ⟨d, sz, mt, hl⟩ := hfile store camP hcam
    rw [create_snapshot_eq m store camP snapsP now true false hcr d sz mt hl]
    refine ⟨rfl, ?_⟩
    show ((Store.set _ _ _).lookup _).isSome = true
    rw [Store.lookup_set_self]
    rfl
  · intro m store camP snapsP now hcr hcam htoc
    obtain ⟨d, sz, mt, hl⟩ := hfile store camP hcam
    rw [create_snapshot_eq m store camP snapsP now false true hcr d sz mt hl]
    refine ⟨rfl, ?_, ?_, rfl⟩
    · show ((Store.set _ _ _).lookup _).isSome = true
      rw [Store.lookup_set_ne _ _ _ _ (ne_append_singleton _ "metadata.json"),
        Store.lookup_set_ne _ _ _ _ (ne_append_singleton _ "snap.bin")]
      have h2 := Store.existsB_mkdirp_self store
        (snapsP ++ [snapDirName m.nextId]) (by simp)
      rw [Store.existsB] at h2
      exact h2
    · show ((Store.set _ _ _).lookup _).isSome = false
      rw [Store.lookup_set_ne _ _ _ _
          (append_singleton_ne _ "snap.toc" "metadata.json" (by decide)),
        Store.lookup_set_ne _ _ _ _
          (append_singleton_ne _ "snap.toc" "snap.bin" (by decide)),
        Store.lookup_mkdirp_of_longer _ _ _ (by simp), htoc]
      rfl
  · intro m store camP snapsP now rf mf tf hcr
    unfold create_snapshot
    rw [if_pos hcr]

/-- Counterexample to C4 as stated: the metadata write fails — a failure
strictly before the completion-marker write — yet creation succeeds, and the
partial directory is kept and completed (marker present, metadata absent)
rather than removed. -/
theorem C4_counterexample_metadata_fault_still_succeeds :
    createMetaFaultOutcome.result =
      .ok { id := 0, path := snapsRoot ++ ["snap-000000"], createdAt := 7,
            refcount := 0 } ∧
    createMetaFaultOutcome.store.existsB (snapsRoot ++ ["snap-000000"]) = true ∧
    createMetaFaultOutcome.store.existsB
      (snapsRoot ++ ["snap-000000", "snap.toc"]) = true ∧
    createMetaFaultOutcome.store.existsB
      (snapsRoot ++ ["snap-000000", "metadata.json"]) = false :=
  ⟨by rfl, by decide, by decide, by decide⟩

/-- Witness for C4 (amended): fault-free creation against the bare store
emits the completion-marker write as its last filesystem call. -/
theorem C4_amended_witness :
    (mgr0.creating = false ∧ storeC4.isFileB camDiskP = true) ∧
    (create_snapshot mgr0 storeC4 camDiskP snapsRoot 7 false false false).events =
      [.mkdirE (snapsRoot ++ [snapDirName mgr0.nextId]),
       .reflinkE camDiskP (snapsRoot ++ [snapDirName mgr0.nextId] ++ ["snap.bin"]),
       .writeTextE (snapsRoot ++ [snapDirName mgr0.nextId] ++ ["metadata.json"]),
       .writeTextE (snapsRoot ++ [snapDirName mgr0.nextId] ++ ["snap.toc"])] :=
  ⟨⟨rfl, by decide⟩,
   (C4_amended_create_marker_last_and_fault_behaviour.1 mgr0 storeC4 camDiskP
      snapsRoot 7 rfl (by decide)).2.1⟩

/-! ### Claim C5 — delete: refcount guard, marker first, directory gone -/

/-- The store after the completion-marker removal step of
`delete_snapshot`. -/
def deleteStep1 (store : Store) (snap : SnapshotRec) : Store :=
  if store.existsB snap.tocPath then
    match store.removeFile snap.tocPath with
    | some s' => s'
    | none => store
  else store

theorem deleteStep1_lookup_ne (store : Store) (snap : SnapshotRec)
    (q : FsPath) (hq : q ≠ snap.tocPath) :
    (deleteStep1 store snap).lookup q = store.lookup q := by
  unfold deleteStep1
  by_cases htoc : store.existsB snap.tocPath = true
  · rw [if_pos htoc]
    cases hl : store.removeFile snap.tocPath with
    | none => rfl
    | some s' =>
      unfold Store.removeFile at hl
      cases hn : store.lookup snap.tocPath with
      | none => rw [hn] at hl; exact absurd hl (by simp)
      | some n =>
        cases n with
        | dir => rw [hn] at hl; exact absurd hl (by simp)
        | file d sz mt =>
          rw [hn] at hl
          injection hl with hl
          rw [← hl, Store.lookup_eraseP_ne store snap.tocPath q hq]
  · rw [if_neg htoc]

/-- Computation of `delete_snapshot` on a registered snapshot with no active
reference. -/
theorem delete_snapshot_eq (m : Manager) (store : Store) (id : Nat)
    (snap : SnapshotRec) (hlook : m.lookupSnap id = some snap)
    (hrc : ¬ snap.refcount > 0) :
    delete_snapshot m store id =
      (.ok true, { m with snapshots := aerase m.snapshots id },
       if (deleteStep1 store snap).existsB snap.path then
         (deleteStep1 store snap).rmtree snap.path
       else deleteStep1 store snap,
       (if store.existsB snap.tocPath then [FsEvent.removeE snap.tocPath] else []) ++
       (if (deleteStep1 store snap).existsB snap.path then
          [FsEvent.rmtreeE snap.path] else [])) := by
  unfold delete_snapshot deleteStep1
  simp only [hlook]
  rw [if_neg hrc]

/-- C5: deleting a registered snapshot fails with the in-use error and leaves
everything untouched while its refcount is positive; with refcount zero the
call returns success, the snapshot directory no longer exists (nor anything
under it), and — when marker and directory were present — the two filesystem
removals happen marker first. -/
theorem C5_delete_in_use_guard_and_marker_first :
    ∀ (m : Manager) (store : Store) (id : Nat) (snap : SnapshotRec),
      m.lookupSnap id = some snap →
      (0 < snap.refcount →
        delete_snapshot m store id = (.error .inUse, m, store, [])) ∧
      (snap.refcount ≤ 0 →
        ∃ store2 evs,
          delete_snapshot m store id =
            (.ok true, { m with snapshots := aerase m.snapshots id }, store2, evs) ∧
          store2.existsB snap.path = false ∧
          (store.existsB snap.path = true →
            ∀ q, pathLE snap.path q = true → store2.lookup q = none) ∧
          (store.existsB snap.tocPath = true → store.existsB snap.path = true →
            evs = [.removeE snap.tocPath, .rmtreeE snap.path])) := by
  intro m store id snap hlook
  constructor
  · intro hrc
    unfold delete_snapshot
    simp only [hlook]
    rw [if_pos hrc]
  · intro hrc
    have hrc' : ¬ snap.refcount > 0 := not_lt.mpr hrc
    have hpath1 : ∀ _ : store.existsB snap.path = true,
        (deleteStep1 store snap).existsB snap.path = true := by
      intro hp
      rw [Store.existsB, deleteStep1_lookup_ne store snap snap.path
        (ne_append_singleton snap.path "snap.toc")]
      exact hp
    refine ⟨_, _, delete_snapshot_eq m store id snap hlook hrc', ?_, ?_, ?_⟩
    · by_cases hex : (deleteStep1 store snap).existsB snap.path = true
      · rw [if_pos hex, Store.existsB,
          Store.lookup_rmtree_of_le _ _ _ (pathLE_refl snap.path)]
        rfl
      · rw [if_neg hex]
        exact Bool.eq_false_iff.mpr hex
    · intro hp q hq
      rw [if_pos (hpath1 hp)]
      exact Store.lookup_rmtree_of_le _ _ _ hq
    · intro htoc hp
      rw [if_pos htoc, if_pos (hpath1 hp)]
      rfl

/-- Witness for C5: on the loaded two-snapshot store, deleting the in-use
`snap-000001` fails; deleting it unreferenced removes its directory. -/
theorem C5_delete_witness :
    (mgrInUse.lookupSnap 1 = some { snapRec1 with refcount := 1 } ∧
      delete_snapshot mgrInUse storeBLoaded 1 =
        (.error .inUse, mgrInUse, storeBLoaded, [])) ∧
    (mgrFree.lookupSnap 1 = some snapRec1 ∧
      ∃ store2 evs,
        delete_snapshot mgrFree storeBLoaded 1 =
          (.ok true, { mgrFree with snapshots := aerase mgrFree.snapshots 1 },
           store2, evs) ∧
        store2.existsB snapRec1.path = false ∧
        (storeBLoaded.existsB snapRec1.path = true →
          ∀ q, pathLE snapRec1.path q = true → store2.lookup q = none) ∧
        (storeBLoaded.existsB snapRec1.tocPath = true →
          storeBLoaded.existsB snapRec1.path = true →
          evs = [.removeE snapRec1.tocPath, .rmtreeE snapRec1.path])) :=
  ⟨⟨by rfl,
    (C5_delete_in_use_guard_and_marker_first mgrInUse storeBLoaded 1
        { snapRec1 with refcount := 1 } (by rfl)).1 (by decide)⟩,
   ⟨by rfl,
    (C5_delete_in_use_guard_and_marker_first mgrFree storeBLoaded 1 snapRec1
        (by rfl)).2 (by decide)⟩⟩

/-! ### Claim C3 — startup sweep and next-id behaviour -/

theorem alookup_aset_self (l : List (Nat × SnapshotRec)) (k : Nat)
    (v : SnapshotRec) : alookup (aset l k v) k = some v := by
  induction l with
  | nil => simp [aset, alookup]
  | cons e es ih =>
    unfold aset
    by_cases he : e.1 = k
    · rw [if_pos he]
      simp [alookup]
    · rw [if_neg he]
      unfold alookup
      rw [if_neg he]
      exact ih

theorem alookup_aset_ne (l : List (Nat × SnapshotRec)) (k : Nat)
    (v : SnapshotRec) (id : Nat) (h : id ≠ k) :
    alookup (aset l k v) id = alookup l id := by
  induction l with
  | nil =>
    unfold aset alookup
    rw [if_neg (fun hh => h hh.symm)]
    rfl
  | cons e es ih =>
    unfold aset
    by_cases he : e.1 = k
    · rw [if_pos he]
      unfold alookup
      rw [if_neg (fun hh => h hh.symm), if_neg (by rw [he]; exact fun hh => h hh.symm)]
    · rw [if_neg he]
      unfold alookup
      by_cases heq : e.1 = id
      · rw [if_pos heq, if_pos heq]
      · rw [if_neg heq, if_neg heq]
        exact ih

theorem loadOneEntry_nextId_inv (snapshotsPath : FsPath) (now : Nat)
    (acc : Manager × Store) (nm : String)
    (hinv : ∀ id snap, alookup acc.1.snapshots id = some snap → id < acc.1.nextId) :
    ∀ id snap,
      alookup (loadOneEntry snapshotsPath now acc nm).1.snapshots id = some snap →
      id < (loadOneEntry snapshotsPath now acc nm).1.nextId := by
  obtain ⟨m, store⟩ := acc
  intro id snap
  simp only [loadOneEntry]
  cases hp : parseSnapName nm with
  | none => exact hinv id snap
  | some snapId =>
    cases hd : store.isDirB (snapshotsPath ++ [nm]) with
    | false => exact hinv id snap
    | true =>
      cases ht : store.existsB (snapshotsPath ++ [nm] ++ ["snap.toc"]) with
      | false => exact hinv id snap
      | true =>
        intro hl
        have key : ∀ (v : SnapshotRec),
            alookup (aset m.snapshots snapId v) id = some snap →
            id < max m.nextId (snapId + 1) := by
          intro v hv
          by_cases hid : id = snapId
          · subst hid
            exact lt_of_lt_of_le (Nat.lt_succ_self id) (le_max_right _ _)
          · rw [alookup_aset_ne _ _ _ _ hid] at hv
            exact lt_of_lt_of_le (hinv id snap hv) (le_max_left _ _)
        exact key _ hl

theorem loadFold_nextId_inv (snapshotsPath : FsPath) (now : Nat) :
    ∀ (names : List String) (acc : Manager × Store),
      (∀ id snap, alookup acc.1.snapshots id = some snap → id < acc.1.nextId) →
      ∀ id snap,
        alookup (names.foldl (loadOneEntry snapshotsPath now) acc).1.snapshots id =
          some snap →
        id < (names.foldl (loadOneEntry snapshotsPath now) acc).1.nextId := by
  intro names
  induction names with
  | nil => intro acc hinv; exact hinv
  | cons nm names ih =>
    intro acc hinv
    exact ih _ (loadOneEntry_nextId_inv snapshotsPath now acc nm hinv)

theorem load_snapshots_nextId_bound (store : Store) (snapshotsPath : FsPath)
    (now : Nat) (id : Nat) (snap : SnapshotRec)
    (hl : alookup (load_snapshots store snapshotsPath now).1.snapshots id = some snap) :
    id + 1 ≤ (load_snapshots store snapshotsPath now).1.nextId := by
  revert hl
  unfold load_snapshots
  cases he : store.existsB snapshotsPath with
  | false =>
    intro hl
    exact absurd hl (by simp [alookup])
  | true =>
    intro hl
    exact loadFold_nextId_inv snapshotsPath now (store.listdir snapshotsPath)
      ({ snapshots := [], nextId := 0, creating := false }, store)
      (fun id snap h => absurd h (by simp [alookup])) id snap hl

/-- C3 (amended): on store construction a snapshot directory lacking the
completion marker is removed, but it does not advance the next id — the next
id is one greater than the maximum id among the *complete* (marker-bearing)
snapshot directories, zero when there are none.  In the claim's scenario
(only an incomplete `snap-000003`) the first snapshot created afterwards has
id 0; with a complete `snap-000001` alongside it has id 2.  In general every
loaded snapshot's id is strictly below the next id. -/
theorem C3_amended_sweep_and_next_id :
    (∀ (store : Store) (snapshotsPath : FsPath) (now id : Nat)
        (snap : SnapshotRec),
        alookup (load_snapshots store snapshotsPath now).1.snapshots id = some snap →
        id + 1 ≤ (load_snapshots store snapshotsPath now).1.nextId) ∧
    ((load_snapshots storeA snapsRoot 99).2.existsB snap3Path = false ∧
      (load_snapshots storeA snapsRoot 99).1.nextId = 0 ∧
      (create_snapshot (load_snapshots storeA snapsRoot 99).1
          (load_snapshots storeA snapsRoot 99).2 camDiskP snapsRoot 99
          false false false).result =
        .ok { id := 0, path := snapsRoot ++ ["snap-000000"], createdAt := 99,
              refcount := 0 }) ∧
    ((load_snapshots storeB snapsRoot 99).2.existsB snap3Path = false ∧
      (load_snapshots storeB snapsRoot 99).1.nextId = 2 ∧
      (create_snapshot (load_snapshots storeB snapsRoot 99).1
          (load_snapshots storeB snapsRoot 99).2 camDiskP snapsRoot 99
          false false false).result =
        .ok { id := 2, path := snapsRoot ++ ["snap-000002"], createdAt := 99,
              refcount := 0 }) :=
  ⟨load_snapshots_nextId_bound,
   ⟨by decide, by decide, by rfl⟩,
   ⟨by decide, by decide, by rfl⟩⟩

/-- Counterexample to C3 as stated: after sweeping the incomplete
`snap-000003` (image and metadata present, no `snap.toc`), the first
snapshot created has id 0, not 3 — ids of swept incomplete directories do
not advance the next id. -/
theorem C3_counterexample_first_create_id_zero :
    (load_snapshots storeA snapsRoot 99).2.existsB snap3Path = false ∧
    (create_snapshot (load_snapshots storeA snapsRoot 99).1
        (load_snapshots storeA snapsRoot 99).2 camDiskP snapsRoot 99
        false false false).result =
      .ok { id := 0, path := snapsRoot ++ ["snap-000000"], createdAt := 99,
            refcount := 0 } ∧
    (0 : Nat) ≠ 3 :=
  ⟨by decide, by rfl, by decide⟩

/-- Witness for C3 (amended): the loaded complete `snap-000001` of `storeB`
keeps its id below the next id. -/
theorem C3_amended_witness :
    alookup (load_snapshots storeB snapsRoot 99).1.snapshots 1 = some snapRec1 ∧
    1 + 1 ≤ (load_snapshots storeB snapsRoot 99).1.nextId :=
  ⟨by rfl,
   C3_amended_sweep_and_next_id.1 storeB snapsRoot 99 1 snapRec1 (by rfl)⟩

/-! ### Claim C9 — refcount discipline of acquire and release -/

theorem rcStep_refcount_nonneg (s : RcState) (op : RcOp)
    (hinv : ∀ id snap, s.manager.lookupSnap id = some snap → 0 ≤ snap.refcount) :
    ∀ id snap, (rcStep s op).manager.lookupSnap id = some snap →
      0 ≤ snap.refcount := by
  intro id snap
  cases op with
  | acq id2 =>
    simp only [rcStep, Manager.acquire]
    cases hl2 : s.manager.lookupSnap id2 with
    | none => exact hinv id snap
    | some snap2 =>
      intro hl
      have h0 : 0 ≤ snap2.refcount := hinv id2 snap2 hl2
      have hl' : alookup
          (aset s.manager.snapshots id2 { snap2 with refcount := snap2.refcount + 1 })
          id = some snap := hl
      by_cases hid : id = id2
      · rw [hid, alookup_aset_self] at hl'
        injection hl' with hl'
        rw [← hl']
        show 0 ≤ snap2.refcount + 1
        omega
      · rw [alookup_aset_ne _ _ _ _ hid] at hl'
        exact hinv id snap hl'
  | rel i =>
    simp only [rcStep]
    cases hh : s.handles[i]? with
    | none => exact hinv id snap
    | some h =>
      simp only [releaseHandle]
      cases hrel : h.released with
      | true => exact fun hl => hinv id snap hl
      | false =>
        cases hl2 : s.manager.lookupSnap h.snapId with
        | none => exact fun hl => hinv id snap hl
        | some snap2 =>
          intro hl
          have hl' : alookup
              (aset s.manager.snapshots h.snapId
                { snap2 with refcount := max 0 (snap2.refcount - 1) })
              id = some snap := hl
          by_cases hid : id = h.snapId
          · rw [hid, alookup_aset_self] at hl'
            injection hl' with hl'
            rw [← hl']
            show (0 : Int) ≤ max 0 (snap2.refcount - 1)
            exact le_max_left _ _
          · rw [alookup_aset_ne _ _ _ _ hid] at hl'
            exact hinv id snap hl'

theorem rcRun_refcount_nonneg : ∀ (ops : List RcOp) (s : RcState),
    (∀ id snap, s.manager.lookupSnap id = some snap → 0 ≤ snap.refcount) →
    ∀ id snap, (rcRun ops s).manager.lookupSnap id = some snap →
      0 ≤ snap.refcount := by
  intro ops
  induction ops with
  | nil => intro s hinv; exact hinv
  | cons op ops ih => intro s hinv; exact ih _ (rcStep_refcount_nonneg s op hinv)

/-- C9: acquiring a registered snapshot increments its refcount by exactly
one (other snapshots untouched) and hands out an unreleased handle; releasing
a live handle of a registered snapshot with positive refcount decrements it
by exactly one and marks the handle released; releasing an already-released
handle changes nothing; every order of two acquires and two releases of the
same snapshot ends with refcount zero and both handles released; and under
any operation sequence no refcount ever becomes negative. -/
theorem C9_refcount_acquire_release_discipline :
    (∀ (m : Manager) (id : Nat) (snap : SnapshotRec),
        m.lookupSnap id = some snap →
        ∃ m' h, Manager.acquire m id = .ok (m', h) ∧
          m'.lookupSnap id = some { snap with refcount := snap.refcount + 1 } ∧
          (∀ j, j ≠ id → m'.lookupSnap j = m.lookupSnap j) ∧
          h = { snapId := id, released := false }) ∧
    (∀ (m : Manager) (h : Handle) (snap : SnapshotRec), h.released = false →
        m.lookupSnap h.snapId = some snap → 1 ≤ snap.refcount →
        (releaseHandle m h).1.lookupSnap h.snapId =
          some { snap with refcount := snap.refcount - 1 } ∧
        (releaseHandle m h).2 = { h with released := true }) ∧
    (∀ (m : Manager) (h : Handle), h.released = true →
        releaseHandle m h = (m, h)) ∧
    (∀ ops ∈ rcInterleavings,
        (rcRun ops rcInit).manager.lookupSnap 1 = some snapRec1 ∧
        ∀ h ∈ (rcRun ops rcInit).handles, h.released = true) ∧
    (∀ (ops : List RcOp) (s : RcState),
        (∀ id snap, s.manager.lookupSnap id = some snap → 0 ≤ snap.refcount) →
        ∀ id snap, (rcRun ops s).manager.lookupSnap id = some snap →
          0 ≤ snap.refcount) := by
  refine ⟨?_, ?_, ?_, ?_, rcRun_refcount_nonneg⟩
  · intro m id snap hlook
    have hacq : Manager.acquire m id = Except.ok
        (⟨aset m.snapshots id { snap with refcount := snap.refcount + 1 },
           m.nextId, m.creating⟩,
         ⟨id, false⟩) := by
      unfold Manager.acquire
      simp only [hlook]
    refine ⟨_, _, hacq, ?_, ?_, rfl⟩
    · show alookup (aset m.snapshots id _) id = _
      rw [alookup_aset_self]
    · intro j hj
      show alookup (aset m.snapshots id _) j = _
      rw [alookup_aset_ne _ _ _ _ hj]
      rfl
  · intro m h snap hrel hlook hrc
    have hmax : max 0 (snap.refcount - 1) = snap.refcount - 1 :=
      max_eq_right (by omega)
    have hred : releaseHandle m h = Prod.mk
        ⟨aset m.snapshots h.snapId
            { snap with refcount := max 0 (snap.refcount - 1) },
         m.nextId, m.creating⟩
        ⟨h.snapId, true⟩ := by
      unfold releaseHandle
      rw [if_neg (by rw [hrel]; exact Bool.false_ne_true)]
      simp only [hlook]
    rw [hred]
    constructor
    · show alookup (aset m.snapshots h.snapId _) h.snapId = _
      rw [alookup_aset_self, hmax]
    · rfl
  · intro m h hrel
    unfold releaseHandle
    rw [if_pos hrel]
  · intro ops hops
    simp only [rcInterleavings, List.mem_cons, List.not_mem_nil, or_false] at hops
    rcases hops with h | h | h <;> subst h <;> exact ⟨by decide, by decide⟩

/-- Witness for C9: acquiring the registered `snap-000001` increments its
refcount from 0 to 1. -/
theorem C9_refcount_witness :
    mgrFree.lookupSnap 1 = some snapRec1 ∧
    (∃ m' h, Manager.acquire mgrFree 1 = .ok (m', h) ∧
      m'.lookupSnap 1 = some { snapRec1 with refcount := snapRec1.refcount + 1 } ∧
      (∀ j, j ≠ 1 → m'.lookupSnap j = mgrFree.lookupSnap j) ∧
      h = { snapId := 1, released := false }) :=
  ⟨by rfl, C9_refcount_acquire_release_discipline.1 mgrFree 1 snapRec1 (by rfl)⟩

/-! ### Claim C6 — size-guarded deletion from the live image -/

theorem deleteOneFile_eq (basePath : FsPath) (dcnt scnt : Nat) (store : Store)
    (af : ArchivedFile) :
    deleteOneFile basePath (dcnt, scnt, store) af =
      if wouldDelete store (basePath ++ af.relativePath, af.size) then
        (dcnt + 1, scnt, store.eraseP (basePath ++ af.relativePath))
      else (dcnt, scnt + 1, store) := by
  unfold deleteOneFile wouldDelete Store.existsB Store.isFileB Store.statSize
    Store.removeFile
  cases hl : store.lookup (basePath ++ af.relativePath) with
  | none => simp [hl]
  | some n =>
    cases n with
    | dir =>
      simp only [hl, Option.isSome_some, Bool.not_true, Bool.false_eq_true,
        if_false, Bool.false_and]
      split <;> rfl
    | file d sz mt =>
      simp only [hl, Option.isSome_some, Bool.not_true, Bool.false_eq_true,
        if_false, Bool.true_and]
      by_cases hsz : sz = af.size
      · simp [hsz]
      · simp [hsz, bne_iff_ne, Ne, Option.some_inj]

theorem lookup_rmdirIfEmpty_file (s : Store) (q p : FsPath) (d : FileData)
    (sz mt : Nat) (h : s.lookup p = some (.file d sz mt)) :
    (s.rmdirIfEmpty q).lookup p = some (.file d sz mt) := by
  unfold Store.rmdirIfEmpty
  split
  · rename_i hcond
    have hq : p ≠ q := by
      intro hpq
      subst hpq
      have hdir : s.isDirB p = true := by
        have := hcond
        simp only [Bool.and_eq_true] at this
        exact this.1
      rw [Store.isDirB, h] at hdir
      exact absurd hdir (by simp)
    rw [Store.lookup_eraseP_ne _ _ _ hq]
    exact h
  · exact h

theorem lookup_rmdirIfEmpty_sub (s : Store) (q p : FsPath) (n : Node)
    (h : (s.rmdirIfEmpty q).lookup p = some n) : s.lookup p = some n := by
  unfold Store.rmdirIfEmpty at h
  split at h
  · by_cases hpq : p = q
    · subst hpq
      rw [Store.lookup_eraseP_self] at h
      exact absurd h (by simp)
    · rw [Store.lookup_eraseP_ne _ _ _ hpq] at h
      exact h
  · exact h

theorem foldl_rmdir_lookup_file (L : List FsPath) :
    ∀ (s : Store) (p : FsPath) (d : FileData) (sz mt : Nat),
      s.lookup p = some (.file d sz mt) →
      (L.foldl Store.rmdirIfEmpty s).lookup p = some (.file d sz mt) := by
  induction L with
  | nil => intro s p d sz mt h; exact h
  | cons q L ih =>
    intro s p d sz mt h
    exact ih _ _ _ _ _ (lookup_rmdirIfEmpty_file s q p d sz mt h)

theorem foldl_rmdir_lookup_sub (L : List FsPath) :
    ∀ (s : Store) (p : FsPath) (n : Node),
      (L.foldl Store.rmdirIfEmpty s).lookup p = some n → s.lookup p = some n := by
  induction L with
  | nil => intro s p n h; exact h
  | cons q L ih =>
    intro s p n h
    exact lookup_rmdirIfEmpty_sub s q p n (ih _ _ _ h)

theorem cleanup_lookup_file (store : Store) (b p : FsPath) (d : FileData)
    (sz mt : Nat) (h : store.lookup p = some (.file d sz mt)) :
    (cleanupEmptyDirs store b).lookup p = some (.file d sz mt) := by
  unfold cleanupEmptyDirs
  split
  · exact h
  · exact foldl_rmdir_lookup_file _ _ _ _ _ _ h

theorem cleanup_lookup_sub (store : Store) (b p : FsPath) (n : Node)
    (h : (cleanupEmptyDirs store b).lookup p = some n) :
    store.lookup p = some n := by
  unfold cleanupEmptyDirs at h
  split at h
  · exact h
  · exact foldl_rmdir_lookup_sub _ _ _ _ h

theorem wouldDelete_congr (store cur : Store) (p : FsPath) (sz : Nat)
    (hsub : ∀ q n, cur.lookup q = some n → store.lookup q = some n)
    (hkeep : store.isFileB p = true → cur.lookup p = store.lookup p) :
    wouldDelete cur (p, sz) = wouldDelete store (p, sz) := by
  cases hf : store.isFileB p with
  | true =>
    have hc := hkeep hf
    simp only [wouldDelete, Store.isFileB, Store.statSize]
    rw [hc]
  | false =>
    have hcf : cur.isFileB p = false := by
      cases hcl : cur.lookup p with
      | none => rw [Store.isFileB, hcl]
      | some n =>
        cases n with
        | dir => rw [Store.isFileB, hcl]
        | file d s2 m2 =>
          have h2 := hsub p _ hcl
          rw [Store.isFileB, h2] at hf
          exact absurd hf (by simp)
    simp only [wouldDelete]
    rw [hcf, hf]
    simp only [Bool.false_and]

theorem deleteFiles_fold_spec (store : Store) (basePath : FsPath) :
    ∀ (files : List ArchivedFile) (dcnt scnt : Nat) (cur : Store)
      (P : List FsPath) (ds ss : Nat) (st : Store),
      (∀ p n, cur.lookup p = some n → store.lookup p = some n) →
      (∀ p, p ∈ files.map (fun af => basePath ++ af.relativePath) ++ P →
        store.isFileB p = true → cur.lookup p = store.lookup p) →
      (files.map (fun af => basePath ++ af.relativePath) ++ P).Nodup →
      files.foldl (deleteOneFile basePath) (dcnt, scnt, cur) = (ds, ss, st) →
      ds = dcnt + (files.filter (fun af =>
          wouldDelete store (basePath ++ af.relativePath, af.size))).length ∧
      ss = scnt + (files.filter (fun af =>
          !wouldDelete store (basePath ++ af.relativePath, af.size))).length ∧
      (∀ p n, st.lookup p = some n → store.lookup p = some n) ∧
      (∀ p, p ∈ P → store.isFileB p = true → st.lookup p = store.lookup p) ∧
      (∀ p, store.isFileB p = true → cur.lookup p = store.lookup p →
        st.lookup p ≠ store.lookup p →
        ∃ af ∈ files, basePath ++ af.relativePath = p ∧
          wouldDelete store (basePath ++ af.relativePath, af.size) = true) := by
  intro files
  induction files with
  | nil =>
    intro dcnt scnt cur P ds ss st hsub hkeep hnodup heq
    injection heq with h1 h2
    injection h2 with h2 h3
    subst h1
    subst h2
    subst h3
    refine ⟨by simp, by simp, hsub,
      fun p hp hf => hkeep p (List.mem_append_right _ hp) hf, ?_⟩
    intro p hf hcur hne
    exact absurd hcur hne
  | cons af files ih =>
    intro dcnt scnt cur P ds ss st hsub hkeep hnodup heq
    simp only [List.map_cons, List.cons_append, List.nodup_cons] at hnodup
    obtain ⟨hhd_not_mem, hnodup'⟩ := hnodup
    have hkeephd : store.isFileB (basePath ++ af.relativePath) = true →
        cur.lookup (basePath ++ af.relativePath) =
          store.lookup (basePath ++ af.relativePath) := by
      intro hf
      refine hkeep _ ?_ hf
      simp
    have hcong := wouldDelete_congr store cur (basePath ++ af.relativePath)
      af.size hsub hkeephd
    rw [List.foldl_cons, deleteOneFile_eq, hcong] at heq
    cases hwd : wouldDelete store (basePath ++ af.relativePath, af.size) with
    | true =>
      rw [hwd, if_pos rfl] at heq
      have hsub' : ∀ p n,
          (cur.eraseP (basePath ++ af.relativePath)).lookup p = some n →
          store.lookup p = some n := by
        intro p n hp
        by_cases hpq : p = basePath ++ af.relativePath
        · subst hpq
          rw [Store.lookup_eraseP_self] at hp
          exact absurd hp (by simp)
        · rw [Store.lookup_eraseP_ne _ _ _ hpq] at hp
          exact hsub p n hp
      have hkeep' : ∀ p,
          p ∈ files.map (fun af => basePath ++ af.relativePath) ++ P →
          store.isFileB p = true →
          (cur.eraseP (basePath ++ af.relativePath)).lookup p =
            store.lookup p := by
        intro p hp hf
        have hpq : p ≠ basePath ++ af.relativePath :=
          fun h => hhd_not_mem (h ▸ hp)
        rw [Store.lookup_eraseP_ne _ _ _ hpq]
        exact hkeep p (List.mem_cons_of_mem _ hp) hf
      obtain ⟨ihd, ihs, ihsub, ihkeep, ihlast⟩ :=
        ih (dcnt + 1) scnt _ P ds ss st hsub' hkeep' hnodup' heq
      refine ⟨?_, ?_, ihsub, ihkeep, ?_⟩
      · rw [ihd, List.filter_cons]
        simp only [hwd, if_true, List.length_cons]
        omega
      · rw [ihs, List.filter_cons]
        simp only [hwd, Bool.not_true, Bool.false_eq_true, if_false]
      · intro p hf hcur hne
        by_cases hpq : p = basePath ++ af.relativePath
        · exact ⟨af, List.mem_cons_self af files, hpq.symm, hwd⟩
        · have hcur' : (cur.eraseP (basePath ++ af.relativePath)).lookup p =
              store.lookup p := by
            rw [Store.lookup_eraseP_ne _ _ _ hpq]
            exact hcur
          obtain ⟨af2, haf2, hp2, hw2⟩ := ihlast p hf hcur' hne
          exact ⟨af2, List.mem_cons_of_mem _ haf2, hp2, hw2⟩
    | false =>
      rw [hwd, if_neg Bool.false_ne_true] at heq
      have hkeep' : ∀ p,
          p ∈ files.map (fun af => basePath ++ af.relativePath) ++ P →
          store.isFileB p = true → cur.lookup p = store.lookup p :=
        fun p hp hf => hkeep p (List.mem_cons_of_mem _ hp) hf
      obtain ⟨ihd, ihs, ihsub, ihkeep, ihlast⟩ :=
        ih dcnt (scnt + 1) cur P ds ss st hsub hkeep' hnodup' heq
      refine ⟨?_, ?_, ihsub, ihkeep, ?_⟩
      · rw [ihd, List.filter_cons]
        simp only [hwd, Bool.false_eq_true, if_false]
      · rw [ihs, List.filter_cons]
        simp only [hwd, Bool.not_false, if_true, List.length_cons]
        omega
      · intro p hf hcur hne
        obtain ⟨af2, haf2, hp2, hw2⟩ := ihlast p hf hcur hne
        exact ⟨af2, List.mem_cons_of_mem _ haf2, hp2, hw2⟩

theorem isFileB_lookup_file (s : Store) (p : FsPath) (h : s.isFileB p = true) :
    ∃ d sz mt, s.lookup p = some (.file d sz mt) := by
  rw [Store.isFileB] at h
  cases hl : s.lookup p with
  | none => rw [hl] at h; exact absurd h (by simp)
  | some n =>
    cases n with
    | dir => rw [hl] at h; exact absurd h (by simp)
    | file d sz mt => exact ⟨d, sz, mt, rfl⟩

theorem entriesOf_none (cam : FsPath) (entry : String × List ArchivedFile)
    (h : DIR_TO_PATH entry.1 = none) : entriesOf cam entry = [] := by
  simp [entriesOf, h]

theorem entriesOf_map_fst (cam : FsPath) (entry : String × List ArchivedFile)
    (dirPath : FsPath) (h : DIR_TO_PATH entry.1 = some dirPath) :
    (entriesOf cam entry).map Prod.fst =
      entry.2.map (fun af => (cam ++ dirPath) ++ af.relativePath) := by
  simp [entriesOf, h, List.map_map, Function.comp]

theorem entriesOf_filter_length (p : FsPath × Nat → Bool) (cam : FsPath)
    (entry : String × List ArchivedFile) (dirPath : FsPath)
    (h : DIR_TO_PATH entry.1 = some dirPath) :
    ((entriesOf cam entry).filter p).length =
      (entry.2.filter
        (fun af => p ((cam ++ dirPath) ++ af.relativePath, af.size))).length := by
  simp only [entriesOf, h, List.filter_map, List.length_map]
  rfl

theorem manifestEntries_cons (cam : FsPath) (m : String × List ArchivedFile)
    (rest : List (String × List ArchivedFile)) :
    manifestEntries cam (m :: rest) =
      entriesOf cam m ++ manifestEntries cam rest := by
  simp [manifestEntries]

theorem deleteDirs_fold_spec (store : Store) (camDiskMount : FsPath) :
    ∀ (manifests : List (String × List ArchivedFile)) (dcnt scnt : Nat)
      (cur : Store) (ds ss : Nat) (st : Store),
      (∀ p n, cur.lookup p = some n → store.lookup p = some n) →
      (∀ p, p ∈ (manifestEntries camDiskMount manifests).map Prod.fst →
        store.isFileB p = true → cur.lookup p = store.lookup p) →
      ((manifestEntries camDiskMount manifests).map Prod.fst).Nodup →
      manifests.foldl (deleteOneDir camDiskMount) (dcnt, scnt, cur) =
        (ds, ss, st) →
      ds = dcnt + ((manifestEntries camDiskMount manifests).filter
          (wouldDelete store)).length ∧
      ss = scnt + ((manifestEntries camDiskMount manifests).filter
          (fun e => !wouldDelete store e)).length ∧
      (∀ p n, st.lookup p = some n → store.lookup p = some n) ∧
      (∀ p, store.isFileB p = true → cur.lookup p = store.lookup p →
        st.lookup p ≠ store.lookup p →
        ∃ e ∈ manifestEntries camDiskMount manifests,
          e.1 = p ∧ wouldDelete store e = true) := by
  intro manifests
  induction manifests with
  | nil =>
    intro dcnt scnt cur ds ss st hsub hkeep hnodup heq
    injection heq with h1 h2
    injection h2 with h2 h3
    subst h1
    subst h2
    subst h3
    refine ⟨by simp [manifestEntries], by simp [manifestEntries], hsub, ?_⟩
    intro p hf hcur hne
    exact absurd hcur hne
  | cons m rest ih =>
    intro dcnt scnt cur ds ss st hsub hkeep hnodup heq
    cases hd : DIR_TO_PATH m.1 with
    | none =>
      simp only [List.foldl_cons, deleteOneDir, hd] at heq
      have hme : manifestEntries camDiskMount (m :: rest) =
          manifestEntries camDiskMount rest := by
        rw [manifestEntries_cons, entriesOf_none camDiskMount m hd,
          List.nil_append]
      rw [hme] at hkeep hnodup ⊢
      exact ih dcnt scnt cur ds ss st hsub hkeep hnodup heq
    | some dirPath =>
      simp only [List.foldl_cons, deleteOneDir, hd] at heq
      have hme : manifestEntries camDiskMount (m :: rest) =
          entriesOf camDiskMount m ++ manifestEntries camDiskMount rest :=
        manifestEntries_cons camDiskMount m rest
      rw [hme, List.map_append,
        entriesOf_map_fst camDiskMount m dirPath hd] at hkeep hnodup
      rcases h1 : m.2.foldl (deleteOneFile (camDiskMount ++ dirPath))
          (dcnt, scnt, cur) with ⟨d1, s1, st1⟩
      simp only [h1] at heq
      obtain ⟨ihd1, ihs1, ihsub1, ihkeep1, ihlast1⟩ :=
        deleteFiles_fold_spec store (camDiskMount ++ dirPath) m.2 dcnt scnt cur
          ((manifestEntries camDiskMount rest).map Prod.fst) d1 s1 st1
          hsub hkeep hnodup h1
      have hsub2 : ∀ p n,
          (cleanupEmptyDirs st1 (camDiskMount ++ dirPath)).lookup p = some n →
          store.lookup p = some n :=
        fun p n h => ihsub1 p n (cleanup_lookup_sub st1 _ p n h)
      have hkeep2 : ∀ p,
          p ∈ (manifestEntries camDiskMount rest).map Prod.fst →
          store.isFileB p = true →
          (cleanupEmptyDirs st1 (camDiskMount ++ dirPath)).lookup p =
            store.lookup p := by
        intro p hp hf
        have h1k := ihkeep1 p hp hf
        obtain ⟨d, sz, mt, hl⟩ := isFileB_lookup_file store p hf
        have h1l : st1.lookup p = some (.file d sz mt) := by rw [h1k, hl]
        rw [cleanup_lookup_file st1 _ p d sz mt h1l, hl]
      have hnodup2 : ((manifestEntries camDiskMount rest).map Prod.fst).Nodup :=
        hnodup.of_append_right
      obtain ⟨rhd, rhs, rhsub, rhlast⟩ :=
        ih d1 s1 (cleanupEmptyDirs st1 (camDiskMount ++ dirPath)) ds ss st
          hsub2 hkeep2 hnodup2 heq
      refine ⟨?_, ?_, rhsub, ?_⟩
      · rw [rhd, ihd1, hme, List.filter_append, List.length_append,
          entriesOf_filter_length (wouldDelete store) camDiskMount m dirPath hd]
        omega
      · rw [rhs, ihs1, hme, List.filter_append, List.length_append,
          entriesOf_filter_length (fun e => !wouldDelete store e)
            camDiskMount m dirPath hd]
        omega
      · intro p hf hcur hne
        by_cases h1p : st1.lookup p = store.lookup p
        · have hst2 : (cleanupEmptyDirs st1 (camDiskMount ++ dirPath)).lookup p =
              store.lookup p := by
            obtain ⟨d, sz, mt, hl⟩ := isFileB_lookup_file store p hf
            have h1l : st1.lookup p = some (.file d sz mt) := by rw [h1p, hl]
            rw [cleanup_lookup_file st1 _ p d sz mt h1l, hl]
          obtain ⟨e, he, hep, hwd⟩ := rhlast p hf hst2 hne
          refine ⟨e, ?_, hep, hwd⟩
          rw [hme]
          exact List.mem_append_right _ he
        · obtain ⟨af, haf, hap, hwd⟩ := ihlast1 p hf hcur h1p
          refine ⟨((camDiskMount ++ dirPath) ++ af.relativePath, af.size),
            ?_, hap, hwd⟩
          rw [hme]
          refine List.mem_append_left _ ?_
          have hm : ((camDiskMount ++ dirPath) ++ af.relativePath, af.size) ∈
              m.2.map (fun af =>
                ((camDiskMount ++ dirPath) ++ af.relativePath, af.size)) :=
            List.mem_map_of_mem _ haf
          simpa [entriesOf, hd] using hm

/-- Claim C6: in `delete_archived_files`, every file actually unlinked from the
live image had current size equal to its manifest size (whenever a path
vanished there is a manifest entry for it whose recorded size equals the
file size the store held); an entry whose file is missing or whose current
size differs is counted skipped, and in the size-mismatch case the file
still exists unchanged afterwards; the returned pair counts exactly the
size-matched entries as deleted and the rest as skipped (stated under
distinct manifest paths). Concretely, for a 1000-byte manifest entry for
`event/front.mp4` that is 1500 bytes on the live image, the result is zero
deleted, one skipped, the store untouched, with the 1500-byte file intact. -/
theorem C6_delete_archived_size_guard_and_counts :
    (∀ (manifests : List (String × List ArchivedFile)) (store : Store)
        (camDiskMount : FsPath) (ds ss : Nat) (st : Store),
      ((manifestEntries camDiskMount manifests).map Prod.fst).Nodup →
      delete_archived_files (resultWithManifests manifests) store camDiskMount =
        (ds, ss, st) →
      ds = ((manifestEntries camDiskMount manifests).filter
          (wouldDelete store)).length ∧
      ss = ((manifestEntries camDiskMount manifests).filter
          (fun e => !wouldDelete store e)).length ∧
      (∀ p, store.isFileB p = true → st.lookup p ≠ store.lookup p →
        ∃ e ∈ manifestEntries camDiskMount manifests,
          e.1 = p ∧ store.statSize p = some e.2) ∧
      (∀ e ∈ manifestEntries camDiskMount manifests,
        store.isFileB e.1 = true → wouldDelete store e = false →
        st.lookup e.1 = store.lookup e.1)) ∧
    delete_archived_files (resultWithManifests manifestC6) storeC6 camMountP =
      (0, 1, storeC6) ∧
    storeC6.lookup
        (camMountP ++ ["TeslaCam", "SavedClips", "event", "front.mp4"]) =
      some (.file (.blob 1500) 1500 3) := by
  refine ⟨?_, rfl, rfl⟩
  intro manifests store camDiskMount ds ss st hnodup heq
  have heq' : manifests.foldl (deleteOneDir camDiskMount) (0, 0, store) =
      (ds, ss, st) := heq
  obtain ⟨h1, h2, hsub, hlast⟩ :=
    deleteDirs_fold_spec store camDiskMount manifests 0 0 store ds ss st
      (fun p n h => h) (fun p _ _ => rfl) hnodup heq'
  refine ⟨by omega, by omega, ?_, ?_⟩
  · intro p hf hne
    obtain ⟨e, he, hep, hwd⟩ := hlast p hf rfl hne
    refine ⟨e, he, hep, ?_⟩
    rw [wouldDelete, Bool.and_eq_true] at hwd
    rw [← hep]
    exact eq_of_beq hwd.2
  · intro e he hf hwf
    by_contra hne
    obtain ⟨e2, he2, he2p, hwd2⟩ := hlast e.1 hf rfl hne
    have he2e : e2 = e := List.inj_on_of_nodup_map hnodup he2 he he2p
    rw [he2e, hwf] at hwd2
    exact Bool.noConfusion hwd2

/-- Witness for C6: the claim theorem applied to the concrete mismatch
scenario yields zero deleted and one skipped. -/
theorem C6_size_guard_witness :
    (0 : Nat) = ((manifestEntries camMountP manifestC6).filter
        (wouldDelete storeC6)).length ∧
    (1 : Nat) = ((manifestEntries camMountP manifestC6).filter
        (fun e => !wouldDelete storeC6 e)).length :=
  have h := C6_delete_archived_size_guard_and_counts.1 manifestC6 storeC6
    camMountP 0 1 storeC6 (by decide) rfl
  ⟨h.1, h.2.1⟩

end Teslausb
